import Mathlib

/-!
Shallow embedding of `pkg/controller/controller.go` of cloud-provider-kind:
the fleet reconciliation loop (`Controller.Run`), the dual-endpoint client
bootstrap (`Controller.getKubeClient`), the reachability probe (`probeHTTP`),
the per-cluster launch (`startCloudControllerManager`) and the shutdown
cleanup pass (`cleanup`).

External collaborators (the kind provider, client-go, the delegated
controllers, the container runtime) are modelled as oracles collected in a
`World` record.  Time is discrete, in seconds: every `time.Sleep(d)` and
every second of polling advances a clock `now : Nat`; oracles whose answer
may change over time take the clock as an argument.  The process-level
context is modelled by `World.cancelAt`: the instant at which the
cancellation signal fires (`none` = it never fires); `ctx.Done()` is
selected exactly when the clock has reached that instant.
-/

deriving instance DecidableEq for Except

namespace CPKind

/-- Opaque cluster identifier, a kind cluster name (`string` in Go). -/
abbrev ClusterID := String

/-- The part of a parsed `rest.Config` the controller inspects: its `Host`.
Produced by `clientcmd.RESTConfigFromKubeConfig`. -/
structure RESTConfig where
  host : String
deriving DecidableEq

/-- A transport-level failure of an HTTP exchange: the `err != nil` branch of
`client.Get(address)` in `probeHTTP`. -/
inductive TransportError
  | connectionRefused
  | timeoutReached
  | tlsHandshakeFailure
deriving DecidableEq

/-- A completed HTTP exchange, whatever its status code. -/
structure HTTPResponse where
  statusCode : Nat
deriving DecidableEq

/-- What `probeHTTP` did: its boolean return value and whether it drained
the response body (`io.ReadAll(resp.Body)`) before returning. -/
structure ProbeOutcome where
  reachable : Bool
  bodyDrained : Bool
deriving DecidableEq

/-- Embedding of `probeHTTP(client, address)`: the outcome of the single
`client.Get(address)` exchange is the input.  On a transport error it
returns `false` without a body to drain; on any completed response it drains
the body and returns `true`, ignoring the status code. -/
def probeHTTP (exchange : Except TransportError HTTPResponse) : ProbeOutcome :=
  match exchange with
  | .error _ => { reachable := false, bodyDrained := false }
  | .ok _ => { reachable := true, bodyDrained := true }

/-- Oracles for every external collaborator the controller calls, plus the
cancellation instant of the process-level context.

* `listClusters k` — `c.kind.List()` during cycle `k`.  When it fails the
  Go call also returns a nil slice, so the caller's `clusters` variable is
  empty in the error case (the kind provider returns `nil, err`).
* `kubeConfig c internal` — `c.kind.KubeConfig(cluster, internal)`.
* `restConfigFromKubeConfig s` — `clientcmd.RESTConfigFromKubeConfig([]byte(s))`.
* `httpGet host t` — the outcome of `httpClient.Get(host)` issued at time `t`.
* `newForConfig cfg` — whether `kubernetes.NewForConfig(config)` succeeds.
* `healthz c t` — the status code of `GET /healthz` on cluster `c` at time `t`.
* `serviceControllerNew c` / `nodeControllerNew c` — whether
  `servicecontroller.New` / `nodecontroller.NewCloudNodeController` succeed.
* `containersByLabel` — `container.ListByLabel(constants.NodeCCMLabelKey)`.
* `deleteContainer id` — `container.Delete(id)`.
* `cancelAt` — the time at which the process context is canceled. -/
structure World where
  listClusters : Nat → Except Unit (List ClusterID)
  kubeConfig : ClusterID → Bool → Except Unit String
  restConfigFromKubeConfig : String → Except Unit RESTConfig
  httpGet : String → Nat → Except TransportError HTTPResponse
  newForConfig : RESTConfig → Bool
  healthz : ClusterID → Nat → Nat
  serviceControllerNew : ClusterID → Bool
  nodeControllerNew : ClusterID → Bool
  containersByLabel : Except Unit (List String)
  deleteContainer : String → Except Unit Unit
  cancelAt : Option Nat

/-- Whether `ctx.Done()` is selected at time `now`: the cancellation signal
has fired at or before `now`. -/
def ctxDone (w : World) (now : Nat) : Bool :=
  match w.cancelAt with
  | none => false
  | some t => decide (t ≤ now)

/-- Trace of the probe retry loop of `getKubeClient` for one variant:
whether some probe succeeded (`ok`), whether the loop returned because the
context was done (`canceled`), the times at which `probeHTTP` was attempted,
the durations of the `time.Sleep(time.Second * time.Duration(i))` calls that
were executed, and the clock after the loop. -/
structure ProbeLoopOut where
  ok : Bool
  canceled : Bool
  attempts : List Nat
  sleeps : List Nat
  now : Nat
deriving DecidableEq

/-- The loop `for i := 0; i < 5; i++ { ... }` of `getKubeClient`: at each
iteration it first selects on `ctx.Done()` (returning the context's error),
then probes `config.Host`, breaking on success, and otherwise sleeps `i`
seconds before the next iteration.  `r` is the remaining iteration count and
`i` the current index. -/
def probeLoopAux (w : World) (host : String) : Nat → Nat → Nat → ProbeLoopOut
  | 0, _, now => { ok := false, canceled := false, attempts := [], sleeps := [], now := now }
  | r + 1, i, now =>
    if ctxDone w now then
      { ok := false, canceled := true, attempts := [], sleeps := [], now := now }
    else if (probeHTTP (w.httpGet host now)).reachable then
      { ok := true, canceled := false, attempts := [now], sleeps := [], now := now }
    else
      let rest := probeLoopAux w host r (i + 1) (now + i)
      { ok := rest.ok, canceled := rest.canceled, attempts := now :: rest.attempts,
        sleeps := i :: rest.sleeps, now := rest.now }

/-- The probe retry loop as `getKubeClient` runs it: 5 iterations starting
at index 0. -/
def probeLoop (w : World) (host : String) (now : Nat) : ProbeLoopOut :=
  probeLoopAux w host 5 0 now

/-- The two error returns of `getKubeClient`: `ctx.Err()` from inside the
probe loop, and `fmt.Errorf("can not find a working kubernetes clientset")`
after both variants are exhausted. -/
inductive KubeClientError
  | ctxCanceled
  | noWorkingClientset
deriving DecidableEq

/-- Result of `getKubeClient`.  A successful client is represented by the
variant flag it was built for together with the parsed config (`internal`,
`config`); `variantsTried` records, in order, the variants for which a
kubeconfig was requested before returning. -/
structure GetClientOut where
  result : Except KubeClientError (Bool × RESTConfig)
  variantsTried : List Bool
  now : Nat
deriving DecidableEq

/-- The body of `getKubeClient`'s `for _, internal := range []bool{false, true}`
loop, over the list of variants still to try.  Per variant: fetch the
kubeconfig (`continue` on error), parse it (`continue` on error), run the
probe loop (return `ctx.Err()` if it observed cancellation, `continue` if no
probe succeeded), then build the clientset (`continue` on error) and return
it. -/
def getKubeClientAux (w : World) (cluster : ClusterID) : List Bool → Nat → GetClientOut
  | [], now => { result := .error .noWorkingClientset, variantsTried := [], now := now }
  | internal :: rest, now =>
    match w.kubeConfig cluster internal with
    | .error _ =>
      let r := getKubeClientAux w cluster rest now
      { r with variantsTried := internal :: r.variantsTried }
    | .ok kconfig =>
      match w.restConfigFromKubeConfig kconfig with
      | .error _ =>
        let r := getKubeClientAux w cluster rest now
        { r with variantsTried := internal :: r.variantsTried }
      | .ok config =>
        let p := probeLoop w config.host now
        if p.canceled then
          { result := .error .ctxCanceled, variantsTried := [internal], now := p.now }
        else if p.ok then
          if w.newForConfig config then
            { result := .ok (internal, config), variantsTried := [internal], now := p.now }
          else
            let r := getKubeClientAux w cluster rest p.now
            { r with variantsTried := internal :: r.variantsTried }
        else
          let r := getKubeClientAux w cluster rest p.now
          { r with variantsTried := internal :: r.variantsTried }

/-- Embedding of `Controller.getKubeClient(ctx, cluster)`: tries the
variants in the source order `[]bool{false, true}` — external
(`internal = false`) first, then internal. -/
def getKubeClient (w : World) (cluster : ClusterID) (now : Nat) : GetClientOut :=
  getKubeClientAux w cluster [false, true] now

/-- How the `wait.PollImmediateWithContext` call of
`startCloudControllerManager` ended. -/
inductive PollStatus
  | ready
  | timedOut
  | canceled
deriving DecidableEq

/-- Trace of the readiness poll: how it ended, the times at which `/healthz`
was queried, and the clock afterwards. -/
structure PollOut where
  status : PollStatus
  attempts : List Nat
  now : Nat
deriving DecidableEq

/-- `wait.PollImmediateWithContext(ctx, 1*time.Second, 30*time.Second, cond)`
where `cond` queries `/healthz` and succeeds exactly when the status code is
`http.StatusOK` (200).  The condition is checked immediately and then once
per second; the poll observes `ctx` and aborts with its error when the
context is done; after 30 seconds without success it returns a timeout
error.  `r` is the number of checks left in the 30-second window. -/
def pollHealthzAux (w : World) (c : ClusterID) : Nat → Nat → PollOut
  | 0, now => { status := .timedOut, attempts := [], now := now }
  | r + 1, now =>
    if ctxDone w now then { status := .canceled, attempts := [], now := now }
    else if w.healthz c now = 200 then { status := .ready, attempts := [now], now := now }
    else
      let rest := pollHealthzAux w c r (now + 1)
      { rest with attempts := now :: rest.attempts }

/-- The readiness poll with its 30-second window. -/
def pollHealthz (w : World) (c : ClusterID) (now : Nat) : PollOut :=
  pollHealthzAux w c 30 now

/-- Observable actions of the reconciler recorded while it runs.  Instance
lifetimes are numbered by a generation counter `id`; invoking the
`context.CancelFunc` of instance `id` appears as `abortCancel id` when
`startCloudControllerManager` itself cancels a partially built instance, and
as `invokedCancel id` when `Run`'s removal sweep calls `ccm.cancelFn()`. -/
inductive Event
  | bootstrapAttempt (c : ClusterID)
  | launched (c : ClusterID) (id : Nat)
  | startedServiceController (id : Nat)
  | startedNodeController (id : Nat)
  | startedInformers (id : Nat)
  | abortCancel (id : Nat)
  | invokedCancel (id : Nat)
deriving DecidableEq

/-- Result of `startCloudControllerManager`: the new instance's id on
success (`nil, err` is `none`), the events it emitted, the next generation
counter and the clock afterwards. -/
structure StartOut where
  handle : Option Nat
  events : List Event
  gen : Nat
  now : Nat
deriving DecidableEq

/-- Embedding of `startCloudControllerManager(ctx, clusterName, kubeClient,
cloud)`: wait for `/healthz` (return the poll's error on timeout or
cancellation); construct the service controller (return its error — at this
point no background task has been started and no cancellable child context
exists yet); derive the child context and start the service controller
goroutine; construct the node controller (on error call `cancel()` on the
child context and return the error); start the node controller goroutine and
the shared informers; return the `ccm` handle. -/
def startCloudControllerManager (w : World) (c : ClusterID) (gen now : Nat) : StartOut :=
  let p := pollHealthz w c now
  match p.status with
  | .timedOut => { handle := none, events := [], gen := gen, now := p.now }
  | .canceled => { handle := none, events := [], gen := gen, now := p.now }
  | .ready =>
    if w.serviceControllerNew c then
      if w.nodeControllerNew c then
        { handle := some gen,
          events := [.startedServiceController gen, .startedNodeController gen,
            .startedInformers gen],
          gen := gen + 1, now := p.now }
      else
        { handle := none,
          events := [.startedServiceController gen, .abortCancel gen],
          gen := gen + 1, now := p.now }
    else
      { handle := none, events := [], gen := gen, now := p.now }

/-- The in-memory fleet state `c.clusters`: cluster name to the generation
id of its running instance (`map[string]*ccm`). -/
abbrev FleetState := List (ClusterID × Nat)

/-- The keys of the fleet state. -/
def keys (st : FleetState) : List ClusterID := st.map Prod.fst

/-- Result of attempting to add one newly seen cluster: `getKubeClient`
followed by `startCloudControllerManager`, as in the body of `Run`'s
addition loop. -/
structure LaunchOut where
  handle : Option Nat
  events : List Event
  gen : Nat
  now : Nat
deriving DecidableEq

/-- One addition attempt for a cluster not yet in the state: bootstrap a
client (on error, log and `continue`), then start the cloud controller
manager (on error, log and `continue`); on success the caller stores the
handle. -/
def launchOne (w : World) (c : ClusterID) (gen now : Nat) : LaunchOut :=
  let g := getKubeClient w c now
  match g.result with
  | .error _ => { handle := none, events := [.bootstrapAttempt c], gen := gen, now := g.now }
  | .ok _client =>
    let s := startCloudControllerManager w c gen g.now
    match s.handle with
    | none =>
      { handle := none, events := .bootstrapAttempt c :: s.events, gen := s.gen, now := s.now }
    | some id =>
      { handle := some id, events := .bootstrapAttempt c :: (s.events ++ [.launched c id]),
        gen := s.gen, now := s.now }

/-- Result of the addition loop over the listed clusters. -/
structure AddOut where
  st : FleetState
  events : List Event
  gen : Nat
  now : Nat
  exited : Bool
deriving DecidableEq

/-- `Run`'s addition loop `for _, cluster := range clusters`: per cluster it
first selects on `ctx.Done()` (returning from `Run` — `exited := true`),
skips clusters already present in the state, and otherwise attempts a
launch, storing the handle on success. -/
def addClusters (w : World) : List ClusterID → FleetState → Nat → Nat → AddOut
  | [], st, gen, now => { st := st, events := [], gen := gen, now := now, exited := false }
  | c :: rest, st, gen, now =>
    if ctxDone w now then
      { st := st, events := [], gen := gen, now := now, exited := true }
    else if c ∈ keys st then
      addClusters w rest st gen now
    else
      let l := launchOne w c gen now
      let st' := match l.handle with
        | none => st
        | some id => st ++ [(c, id)]
      let r := addClusters w rest st' l.gen l.now
      { r with events := l.events ++ r.events }

/-- `Run`'s removal sweep: for every entry of the state whose cluster is not
in the freshly listed set, invoke its `cancelFn` and delete the key; the
other entries are kept. -/
def removeClusters (clusters : List ClusterID) : FleetState → FleetState × List Event
  | [] => ([], [])
  | (c, id) :: rest =>
    let r := removeClusters clusters rest
    if c ∈ clusters then ((c, id) :: r.1, r.2)
    else (r.1, .invokedCancel id :: r.2)

/-- Result of one body of `Run`'s outer loop. -/
structure CycleOut where
  st : FleetState
  events : List Event
  gen : Nat
  now : Nat
  exited : Bool
deriving DecidableEq

/-- The body of `Run`'s loop once the listed cluster set is known: the
addition loop (which may return from `Run` if the context fires
mid-iteration), then the removal sweep, then
`time.Sleep(30 * time.Second)`. -/
def reconcileWith (w : World) (clusters : List ClusterID) (gen now : Nat)
    (st : FleetState) : CycleOut :=
  let a := addClusters w clusters st gen now
  if a.exited then
    { st := a.st, events := a.events, gen := a.gen, now := a.now, exited := true }
  else
    let r := removeClusters clusters a.st
    { st := r.1, events := a.events ++ r.2, gen := a.gen, now := a.now + 30, exited := false }

/-- One reconciliation cycle (the body of `Run`'s `for` loop after the
top-of-loop select): list the clusters — on a listing error the code logs
"error listing clusters, retrying ..." and falls through with the returned
nil slice, i.e. the empty list — then reconcile against the listed set. -/
def reconcileCycle (w : World) (cycleIdx gen now : Nat) (st : FleetState) : CycleOut :=
  reconcileWith w
    (match w.listClusters cycleIdx with
      | .ok l => l
      | .error _ => []) gen now st

/-- Whether the modelled run returned (`Run` exited via a `ctx.Done()`
branch) or merely ran out of modelling fuel while the real loop would still
be spinning. -/
inductive RunOutcome
  | terminated
  | outOfFuel
deriving DecidableEq

/-- Accumulated result of running `Run`'s loop for at most `fuel` cycles. -/
structure RunOut where
  outcome : RunOutcome
  st : FleetState
  events : List Event
  gen : Nat
  now : Nat
deriving DecidableEq

/-- `Run`'s outer `for` loop: select on `ctx.Done()` at the top (returning
if the signal has fired), otherwise run one reconciliation cycle; a cycle
may itself return from inside the per-cluster iteration. -/
def runAux (w : World) : Nat → Nat → Nat → Nat → FleetState → RunOut
  | 0, _, gen, now, st => { outcome := .outOfFuel, st := st, events := [], gen := gen, now := now }
  | fuel + 1, cycleIdx, gen, now, st =>
    if ctxDone w now then
      { outcome := .terminated, st := st, events := [], gen := gen, now := now }
    else
      let cyc := reconcileCycle w cycleIdx gen now st
      if cyc.exited then
        { outcome := .terminated, st := cyc.st, events := cyc.events, gen := cyc.gen, now := cyc.now }
      else
        let r := runAux w fuel (cycleIdx + 1) cyc.gen cyc.now cyc.st
        { r with events := cyc.events ++ r.events }

/-- Result of the `cleanup` pass: for each container id listed by the
marker label, whether its deletion succeeded. -/
structure CleanupOut where
  attempted : List (String × Bool)
deriving DecidableEq

/-- The deletion loop of `cleanup`: every listed id is attempted; a failed
deletion is logged and does not stop the loop. -/
def deleteLoop (w : World) : List String → List (String × Bool)
  | [] => []
  | id :: rest =>
    let ok := match w.deleteContainer id with
      | .ok _ => true
      | .error _ => false
    (id, ok) :: deleteLoop w rest

/-- Embedding of `cleanup()`: list the containers carrying the
`NodeCCMLabelKey` label; if the listing fails, log and return without
deleting anything; otherwise attempt to delete every listed container. -/
def cleanup (w : World) : CleanupOut :=
  match w.containersByLabel with
  | .error _ => { attempted := [] }
  | .ok ids => { attempted := deleteLoop w ids }

/-- Full result of `Run`: the loop's result plus the `defer cleanup()`
that runs when (and only when) `Run` actually returns. -/
structure FullRunOut where
  outcome : RunOutcome
  st : FleetState
  events : List Event
  now : Nat
  cleanups : List CleanupOut
deriving DecidableEq

/-- Embedding of `Controller.Run(ctx)` starting from the empty state of
`New`: the loop, with `defer cleanup()` executing once when the function
returns (on either of its `return` paths); if the fuel runs out the real
function has not returned and the deferred cleanup has not run. -/
def run (w : World) (fuel : Nat) : FullRunOut :=
  let r := runAux w fuel 0 0 0 []
  match r.outcome with
  | .terminated =>
    { outcome := r.outcome, st := r.st, events := r.events, now := r.now,
      cleanups := [cleanup w] }
  | .outOfFuel =>
    { outcome := r.outcome, st := r.st, events := r.events, now := r.now, cleanups := [] }

/-- Weight of one event towards "the cancellation control of instance `id`
was invoked": both the in-launch `cancel()` call and the removal sweep's
`ccm.cancelFn()` call invoke it. -/
def eventCancelWeight (id : Nat) : Event → Nat
  | .abortCancel j => if j = id then 1 else 0
  | .invokedCancel j => if j = id then 1 else 0
  | _ => 0

/-- How many times the cancellation control of instance `id` was invoked in
a trace. -/
def cancelCount (id : Nat) (evs : List Event) : Nat :=
  (evs.map (eventCancelWeight id)).sum

/-- Weight of one event towards "a background task of instance `id` was
started": the service controller goroutine, the node controller goroutine
and the informer factory's event delivery. -/
def eventStartWeight (id : Nat) : Event → Nat
  | .startedServiceController j => if j = id then 1 else 0
  | .startedNodeController j => if j = id then 1 else 0
  | .startedInformers j => if j = id then 1 else 0
  | _ => 0

/-- How many background tasks of instance `id` a trace started. -/
def startedCount (id : Nat) (evs : List Event) : Nat :=
  (evs.map (eventStartWeight id)).sum

/-- No started background task is left without an invocation of its
instance's cancellation control. -/
def NoLeakedTasks (evs : List Event) : Prop :=
  ∀ id, 0 < startedCount id evs → 0 < cancelCount id evs

/-! Concrete worlds used to evaluate the embedding at explicit inputs. -/

/-- A world whose container listing fails during cleanup; everything else
is inert. -/
def Wclean : World where
  listClusters := fun _ => .ok []
  kubeConfig := fun _ _ => .error ()
  restConfigFromKubeConfig := fun _ => .error ()
  httpGet := fun _ _ => .error .connectionRefused
  newForConfig := fun _ => false
  healthz := fun _ _ => 0
  serviceControllerNew := fun _ => false
  nodeControllerNew := fun _ => false
  containersByLabel := .error ()
  deleteContainer := fun _ => .ok ()
  cancelAt := none

/-- A world whose apiserver is unreachable and whose cancellation signal
fires at time 2, mid-way through the probe backoff. -/
def Wcancel2 : World where
  listClusters := fun _ => .ok []
  kubeConfig := fun _ _ => .ok "kc"
  restConfigFromKubeConfig := fun _ => .ok { host := "h" }
  httpGet := fun _ _ => .error .timeoutReached
  newForConfig := fun _ => true
  healthz := fun _ _ => 200
  serviceControllerNew := fun _ => true
  nodeControllerNew := fun _ => true
  containersByLabel := .ok []
  deleteContainer := fun _ => .ok ()
  cancelAt := some 2

/-- A world in which both endpoint variants are fully reachable but
building the clientset from the external variant's configuration fails,
while the internal variant's succeeds. -/
def Wextfail : World where
  listClusters := fun _ => .ok []
  kubeConfig := fun _ internal => if internal then .ok "int" else .ok "ext"
  restConfigFromKubeConfig := fun s =>
    if s = "ext" then .ok { host := "hostE" } else .ok { host := "hostI" }
  httpGet := fun _ _ => .ok { statusCode := 200 }
  newForConfig := fun cfg => cfg.host == "hostI"
  healthz := fun _ _ => 200
  serviceControllerNew := fun _ => true
  nodeControllerNew := fun _ => true
  containersByLabel := .ok []
  deleteContainer := fun _ => .ok ()
  cancelAt := none

/-- A world in which everything about cluster bootstrap succeeds but
`/healthz` never reports 200. -/
def Wnothealthy : World where
  listClusters := fun _ => .ok ["kind"]
  kubeConfig := fun _ _ => .ok "kc"
  restConfigFromKubeConfig := fun _ => .ok { host := "h" }
  httpGet := fun _ _ => .ok { statusCode := 503 }
  newForConfig := fun _ => true
  healthz := fun _ _ => 500
  serviceControllerNew := fun _ => true
  nodeControllerNew := fun _ => true
  containersByLabel := .ok []
  deleteContainer := fun _ => .ok ()
  cancelAt := none

/-- A world in which bootstrap and readiness succeed but constructing the
node controller fails. -/
def Wnodefail : World where
  listClusters := fun _ => .ok ["kind"]
  kubeConfig := fun _ _ => .ok "kc"
  restConfigFromKubeConfig := fun _ => .ok { host := "h" }
  httpGet := fun _ _ => .ok { statusCode := 200 }
  newForConfig := fun _ => true
  healthz := fun _ _ => 200
  serviceControllerNew := fun _ => true
  nodeControllerNew := fun _ => false
  containersByLabel := .ok []
  deleteContainer := fun _ => .ok ()
  cancelAt := none

/-- A world whose discovery listing fails on every cycle while a single
instance is already running; nothing is reachable. -/
def Wlistfail : World where
  listClusters := fun _ => .error ()
  kubeConfig := fun _ _ => .error ()
  restConfigFromKubeConfig := fun _ => .error ()
  httpGet := fun _ _ => .error .connectionRefused
  newForConfig := fun _ => false
  healthz := fun _ _ => 0
  serviceControllerNew := fun _ => false
  nodeControllerNew := fun _ => false
  containersByLabel := .ok []
  deleteContainer := fun _ => .ok ()
  cancelAt := none

/-- A fully healthy world listing clusters "B" and "C" on every cycle. -/
def Whealthy : World where
  listClusters := fun _ => .ok ["B", "C"]
  kubeConfig := fun _ _ => .ok "kc"
  restConfigFromKubeConfig := fun _ => .ok { host := "h" }
  httpGet := fun _ _ => .ok { statusCode := 200 }
  newForConfig := fun _ => true
  healthz := fun _ _ => 200
  serviceControllerNew := fun _ => true
  nodeControllerNew := fun _ => true
  containersByLabel := .ok []
  deleteContainer := fun _ => .ok ()
  cancelAt := none

/-- A fleet state with instances for clusters "A" (id 0) and "B" (id 1). -/
def ST2 : FleetState := [("A", 0), ("B", 1)]

/-- An idle world (empty listings) whose cancellation signal fires at time
1, during the first inter-cycle sleep. -/
def Wsleepcancel : World where
  listClusters := fun _ => .ok []
  kubeConfig := fun _ _ => .error ()
  restConfigFromKubeConfig := fun _ => .error ()
  httpGet := fun _ _ => .error .connectionRefused
  newForConfig := fun _ => false
  healthz := fun _ _ => 0
  serviceControllerNew := fun _ => false
  nodeControllerNew := fun _ => false
  containersByLabel := .ok []
  deleteContainer := fun _ => .ok ()
  cancelAt := some 1

/-- An idle world whose cancellation signal has already fired at time 0. -/
def Wcancel0 : World where
  listClusters := fun _ => .ok []
  kubeConfig := fun _ _ => .error ()
  restConfigFromKubeConfig := fun _ => .error ()
  httpGet := fun _ _ => .error .connectionRefused
  newForConfig := fun _ => false
  healthz := fun _ _ => 0
  serviceControllerNew := fun _ => false
  nodeControllerNew := fun _ => false
  containersByLabel := .ok []
  deleteContainer := fun _ => .ok ()
  cancelAt := some 0

/-! Helper lemmas -/

theorem ctxDone_of_cancelAt_none (w : World) (h : w.cancelAt = none) (now : Nat) :
    ctxDone w now = false := by
  simp [ctxDone, h]

theorem deleteLoop_map_fst (w : World) (ids : List String) :
    (deleteLoop w ids).map Prod.fst = ids := by
  induction ids with
  | nil => rfl
  | cons id rest ih => simp [deleteLoop, ih]

theorem probeLoopAux_attempts_length_le (w : World) (host : String) :
    ∀ r i now, (probeLoopAux w host r i now).attempts.length ≤ r := by
  intro r
  induction r with
  | zero => intro i now; simp [probeLoopAux]
  | succ r ih =>
    intro i now
    cases hc : ctxDone w now with
    | true => simp [probeLoopAux, hc]
    | false =>
      cases hp : (probeHTTP (w.httpGet host now)).reachable with
      | true => simp [probeLoopAux, hc, hp]
      | false =>
        simp only [probeLoopAux, hc, hp]
        simpa using ih (i + 1) (now + i)

theorem probeLoopAux_sleeps_range (w : World) (host : String) :
    ∀ r i now, (probeLoopAux w host r i now).sleeps =
      List.range' i (probeLoopAux w host r i now).sleeps.length := by
  intro r
  induction r with
  | zero => intro i now; simp [probeLoopAux]
  | succ r ih =>
    intro i now
    cases hc : ctxDone w now with
    | true => simp [probeLoopAux, hc]
    | false =>
      cases hp : (probeHTTP (w.httpGet host now)).reachable with
      | true => simp [probeLoopAux, hc, hp]
      | false =>
        simp only [probeLoopAux, hc, hp, Bool.false_eq_true, if_false, List.length_cons,
          List.range'_succ]
        exact List.cons_eq_cons.mpr ⟨rfl, ih (i + 1) (now + i)⟩

theorem probeLoopAux_sleeps_length_le (w : World) (host : String) :
    ∀ r i now, (probeLoopAux w host r i now).sleeps.length ≤ r := by
  intro r
  induction r with
  | zero => intro i now; simp [probeLoopAux]
  | succ r ih =>
    intro i now
    cases hc : ctxDone w now with
    | true => simp [probeLoopAux, hc]
    | false =>
      cases hp : (probeHTTP (w.httpGet host now)).reachable with
      | true => simp [probeLoopAux, hc, hp]
      | false =>
        simp only [probeLoopAux, hc, hp]
        simpa using ih (i + 1) (now + i)

theorem probeLoopAux_attempts_not_ctxDone (w : World) (host : String) :
    ∀ r i now, ∀ a ∈ (probeLoopAux w host r i now).attempts, ctxDone w a = false := by
  intro r
  induction r with
  | zero => intro i now; simp [probeLoopAux]
  | succ r ih =>
    intro i now
    cases hc : ctxDone w now with
    | true => simp [probeLoopAux, hc]
    | false =>
      cases hp : (probeHTTP (w.httpGet host now)).reachable with
      | true => simp [probeLoopAux, hc, hp]
      | false =>
        simp only [probeLoopAux, hc, hp, Bool.false_eq_true, if_false, List.mem_cons]
        rintro a (rfl | ha)
        · exact hc
        · exact ih (i + 1) (now + i) a ha

theorem probeLoopAux_canceled_ctxDone (w : World) (host : String) :
    ∀ r i now, (probeLoopAux w host r i now).canceled = true →
      ctxDone w (probeLoopAux w host r i now).now = true := by
  intro r
  induction r with
  | zero => intro i now h; simp [probeLoopAux] at h
  | succ r ih =>
    intro i now
    cases hc : ctxDone w now with
    | true => simp [probeLoopAux, hc]
    | false =>
      cases hp : (probeHTTP (w.httpGet host now)).reachable with
      | true => simp [probeLoopAux, hc, hp]
      | false =>
        simp only [probeLoopAux, hc, hp, Bool.false_eq_true, if_false]
        exact ih (i + 1) (now + i)

theorem probeLoopAux_ctxDone_immediate (w : World) (host : String) (r i now : Nat)
    (h : ctxDone w now = true) :
    probeLoopAux w host (r + 1) i now =
      { ok := false, canceled := true, attempts := [], sleeps := [], now := now } := by
  simp [probeLoopAux, h]

theorem probeLoopAux_unreachable (w : World) (host : String)
    (hcancel : w.cancelAt = none)
    (hprobe : ∀ t, (probeHTTP (w.httpGet host t)).reachable = false) :
    ∀ r i now, (probeLoopAux w host r i now).ok = false ∧
      (probeLoopAux w host r i now).canceled = false := by
  intro r
  induction r with
  | zero => intro i now; simp [probeLoopAux]
  | succ r ih =>
    intro i now
    simp only [probeLoopAux, ctxDone_of_cancelAt_none w hcancel now, hprobe now,
      Bool.false_eq_true, if_false]
    exact ih (i + 1) (now + i)

theorem getKubeClientAux_probe_canceled (w : World) (cluster : ClusterID)
    (internal : Bool) (rest : List Bool) (now : Nat) (kconfig : String) (config : RESTConfig)
    (hk : w.kubeConfig cluster internal = .ok kconfig)
    (hr : w.restConfigFromKubeConfig kconfig = .ok config)
    (hp : (probeLoop w config.host now).canceled = true) :
    (getKubeClientAux w cluster (internal :: rest) now).result = .error .ctxCanceled := by
  simp [getKubeClientAux, hk, hr, hp]

theorem take_range_five (k : Nat) (h : k ≤ 5) :
    List.range' 0 k = List.take k [0, 1, 2, 3, 4] := by
  interval_cases k <;> rfl

theorem getKubeClientAux_tried_take (w : World) (c : ClusterID) :
    ∀ (vs : List Bool) (now : Nat), ∃ k, 1 ≤ k ∧
      (getKubeClientAux w c vs now).variantsTried = vs.take k := by
  intro vs
  induction vs with
  | nil => intro now; exact ⟨1, le_refl 1, by simp [getKubeClientAux]⟩
  | cons internal rest ih =>
    intro now
    cases hk : w.kubeConfig c internal with
    | error e =>
      obtain ⟨k, h1, h2⟩ := ih now
      exact ⟨k + 1, by omega, by simp [getKubeClientAux, hk, h2]⟩
    | ok kconfig =>
      cases hr : w.restConfigFromKubeConfig kconfig with
      | error e =>
        obtain ⟨k, h1, h2⟩ := ih now
        exact ⟨k + 1, by omega, by simp [getKubeClientAux, hk, hr, h2]⟩
      | ok config =>
        cases hpc : (probeLoop w config.host now).canceled with
        | true => exact ⟨1, le_refl 1, by simp [getKubeClientAux, hk, hr, hpc]⟩
        | false =>
          cases hpo : (probeLoop w config.host now).ok with
          | true =>
            cases hn : w.newForConfig config with
            | true =>
              exact ⟨1, le_refl 1, by simp [getKubeClientAux, hk, hr, hpc, hpo, hn]⟩
            | false =>
              obtain ⟨k, h1, h2⟩ := ih (probeLoop w config.host now).now
              exact ⟨k + 1, by omega, by simp [getKubeClientAux, hk, hr, hpc, hpo, hn, h2]⟩
          | false =>
            obtain ⟨k, h1, h2⟩ := ih (probeLoop w config.host now).now
            exact ⟨k + 1, by omega, by simp [getKubeClientAux, hk, hr, hpc, hpo, h2]⟩

theorem getKubeClientAux_all_unreachable (w : World) (c : ClusterID)
    (hcancel : w.cancelAt = none)
    (hprobe : ∀ host t, (probeHTTP (w.httpGet host t)).reachable = false) :
    ∀ (vs : List Bool) (now : Nat),
      (getKubeClientAux w c vs now).result = .error .noWorkingClientset := by
  intro vs
  induction vs with
  | nil => intro now; rfl
  | cons internal rest ih =>
    intro now
    cases hk : w.kubeConfig c internal with
    | error e => simp [getKubeClientAux, hk, ih now]
    | ok kconfig =>
      cases hr : w.restConfigFromKubeConfig kconfig with
      | error e => simp [getKubeClientAux, hk, hr, ih now]
      | ok config =>
        have hu := probeLoopAux_unreachable w config.host hcancel
          (fun t => hprobe config.host t) 5 0 now
        simp [getKubeClientAux, probeLoop, hu.1, hu.2, hk, hr, ih]

theorem pollHealthzAux_attempts_range (w : World) (c : ClusterID) :
    ∀ r now, (pollHealthzAux w c r now).attempts =
      List.range' now (pollHealthzAux w c r now).attempts.length := by
  intro r
  induction r with
  | zero => intro now; simp [pollHealthzAux]
  | succ r ih =>
    intro now
    cases hc : ctxDone w now with
    | true => simp [pollHealthzAux, hc]
    | false =>
      by_cases hh : w.healthz c now = 200
      · simp [pollHealthzAux, hc, hh]
      · simp only [pollHealthzAux, hc, hh, Bool.false_eq_true, if_false, List.length_cons,
          List.range'_succ]
        exact List.cons_eq_cons.mpr ⟨rfl, ih (now + 1)⟩

theorem pollHealthzAux_attempts_length_le (w : World) (c : ClusterID) :
    ∀ r now, (pollHealthzAux w c r now).attempts.length ≤ r := by
  intro r
  induction r with
  | zero => intro now; simp [pollHealthzAux]
  | succ r ih =>
    intro now
    cases hc : ctxDone w now with
    | true => simp [pollHealthzAux, hc]
    | false =>
      by_cases hh : w.healthz c now = 200
      · simp [pollHealthzAux, hc, hh]
      · simp only [pollHealthzAux, hc, hh, Bool.false_eq_true, if_false]
        simpa using ih (now + 1)

theorem pollHealthzAux_timedOut_now (w : World) (c : ClusterID) :
    ∀ r now, (pollHealthzAux w c r now).status = .timedOut →
      (pollHealthzAux w c r now).now = now + r := by
  intro r
  induction r with
  | zero => intro now _; simp [pollHealthzAux]
  | succ r ih =>
    intro now
    cases hc : ctxDone w now with
    | true => simp [pollHealthzAux, hc]
    | false =>
      by_cases hh : w.healthz c now = 200
      · simp [pollHealthzAux, hc, hh]
      · simp only [pollHealthzAux, hc, hh, Bool.false_eq_true, if_false]
        intro hs
        have := ih (now + 1) hs
        omega

theorem pollHealthzAux_ready_healthz (w : World) (c : ClusterID) :
    ∀ r now, (pollHealthzAux w c r now).status = .ready →
      w.healthz c (pollHealthzAux w c r now).now = 200 := by
  intro r
  induction r with
  | zero => intro now h; simp [pollHealthzAux] at h
  | succ r ih =>
    intro now
    cases hc : ctxDone w now with
    | true => simp [pollHealthzAux, hc]
    | false =>
      by_cases hh : w.healthz c now = 200
      · simp [pollHealthzAux, hc, hh]
      · simp only [pollHealthzAux, hc, hh, Bool.false_eq_true, if_false]
        exact ih (now + 1)

theorem pollHealthzAux_attempts_not_ctxDone (w : World) (c : ClusterID) :
    ∀ r now, ∀ a ∈ (pollHealthzAux w c r now).attempts, ctxDone w a = false := by
  intro r
  induction r with
  | zero => intro now; simp [pollHealthzAux]
  | succ r ih =>
    intro now
    cases hc : ctxDone w now with
    | true => simp [pollHealthzAux, hc]
    | false =>
      by_cases hh : w.healthz c now = 200
      · simp [pollHealthzAux, hc, hh]
      · simp only [pollHealthzAux, hc, hh, Bool.false_eq_true, if_false, List.mem_cons]
        rintro a (rfl | ha)
        · exact hc
        · exact ih (now + 1) a ha

theorem pollHealthzAux_ctxDone_immediate (w : World) (c : ClusterID) (r now : Nat)
    (h : ctxDone w now = true) :
    pollHealthzAux w c (r + 1) now = { status := .canceled, attempts := [], now := now } := by
  simp [pollHealthzAux, h]

theorem pollHealthzAux_never200 (w : World) (c : ClusterID)
    (h : ∀ t, w.healthz c t ≠ 200) :
    ∀ r now, (pollHealthzAux w c r now).status ≠ .ready := by
  intro r
  induction r with
  | zero => intro now; simp [pollHealthzAux]
  | succ r ih =>
    intro now
    cases hc : ctxDone w now with
    | true => simp [pollHealthzAux, hc]
    | false =>
      simp only [pollHealthzAux, hc, h now, Bool.false_eq_true, if_false]
      exact ih (now + 1)

theorem startCCM_cases (w : World) (c : ClusterID) (gen now : Nat) :
    ((startCloudControllerManager w c gen now).handle = none ∧
      (startCloudControllerManager w c gen now).events = [] ∧
      (startCloudControllerManager w c gen now).gen = gen) ∨
    ((startCloudControllerManager w c gen now).handle = none ∧
      (startCloudControllerManager w c gen now).events =
        [.startedServiceController gen, .abortCancel gen] ∧
      (startCloudControllerManager w c gen now).gen = gen + 1) ∨
    ((startCloudControllerManager w c gen now).handle = some gen ∧
      (startCloudControllerManager w c gen now).events =
        [.startedServiceController gen, .startedNodeController gen, .startedInformers gen] ∧
      (startCloudControllerManager w c gen now).gen = gen + 1) := by
  cases hs : (pollHealthz w c now).status with
  | timedOut => left; simp [startCloudControllerManager, hs]
  | canceled => left; simp [startCloudControllerManager, hs]
  | ready =>
    cases hsvc : w.serviceControllerNew c with
    | false => left; simp [startCloudControllerManager, hs, hsvc]
    | true =>
      cases hnode : w.nodeControllerNew c with
      | false => right; left; simp [startCloudControllerManager, hs, hsvc, hnode]
      | true => right; right; simp [startCloudControllerManager, hs, hsvc, hnode]

theorem startCCM_not_ready_none (w : World) (c : ClusterID) (gen now : Nat)
    (h : (pollHealthz w c now).status ≠ .ready) :
    (startCloudControllerManager w c gen now).handle = none ∧
    (startCloudControllerManager w c gen now).events = [] := by
  cases hs : (pollHealthz w c now).status with
  | timedOut => simp [startCloudControllerManager, hs]
  | canceled => simp [startCloudControllerManager, hs]
  | ready => exact absurd hs h

theorem startCCM_some_imp (w : World) (c : ClusterID) (gen now id : Nat) :
    (startCloudControllerManager w c gen now).handle = some id →
    w.serviceControllerNew c = true ∧ w.nodeControllerNew c = true := by
  intro h
  cases hs : (pollHealthz w c now).status with
  | timedOut => rw [startCCM_not_ready_none w c gen now (by simp [hs]) |>.1] at h; cases h
  | canceled => rw [startCCM_not_ready_none w c gen now (by simp [hs]) |>.1] at h; cases h
  | ready =>
    cases hsvc : w.serviceControllerNew c with
    | false => simp [startCloudControllerManager, hs, hsvc] at h
    | true =>
      cases hnode : w.nodeControllerNew c with
      | false => simp [startCloudControllerManager, hs, hsvc, hnode] at h
      | true => exact ⟨rfl, rfl⟩

theorem launchOne_cases (w : World) (c : ClusterID) (gen now : Nat) :
    ((launchOne w c gen now).handle = none ∧
      (launchOne w c gen now).events = [.bootstrapAttempt c] ∧
      (launchOne w c gen now).gen = gen) ∨
    ((launchOne w c gen now).handle = none ∧
      (launchOne w c gen now).events =
        [.bootstrapAttempt c, .startedServiceController gen, .abortCancel gen] ∧
      (launchOne w c gen now).gen = gen + 1) ∨
    ((launchOne w c gen now).handle = some gen ∧
      (launchOne w c gen now).events =
        [.bootstrapAttempt c, .startedServiceController gen, .startedNodeController gen,
          .startedInformers gen, .launched c gen] ∧
      (launchOne w c gen now).gen = gen + 1) := by
  cases hg : (getKubeClient w c now).result with
  | error e => left; simp [launchOne, hg]
  | ok client =>
    rcases startCCM_cases w c gen (getKubeClient w c now).now with
      ⟨h1, h2, h3⟩ | ⟨h1, h2, h3⟩ | ⟨h1, h2, h3⟩
    · left; simp [launchOne, hg, h1, h2, h3]
    · right; left; simp [launchOne, hg, h1, h2, h3]
    · right; right; simp [launchOne, hg, h1, h2, h3]

theorem launchOne_some_imp (w : World) (c : ClusterID) (gen now id : Nat) :
    (launchOne w c gen now).handle = some id →
    w.serviceControllerNew c = true ∧ w.nodeControllerNew c = true := by
  intro h
  cases hg : (getKubeClient w c now).result with
  | error e => simp [launchOne, hg] at h
  | ok client =>
    cases hh : (startCloudControllerManager w c gen (getKubeClient w c now).now).handle with
    | none => simp [launchOne, hg, hh] at h
    | some j => exact startCCM_some_imp w c gen (getKubeClient w c now).now j hh

theorem launchOne_none_of_never200 (w : World) (c : ClusterID)
    (h : ∀ t, w.healthz c t ≠ 200) (gen now : Nat) :
    (launchOne w c gen now).handle = none := by
  cases hg : (getKubeClient w c now).result with
  | error e => simp [launchOne, hg]
  | ok client =>
    have hnr : (pollHealthz w c (getKubeClient w c now).now).status ≠ .ready :=
      pollHealthzAux_never200 w c h 30 (getKubeClient w c now).now
    have hn := startCCM_not_ready_none w c gen (getKubeClient w c now).now hnr
    simp [launchOne, hg, hn.1]

theorem launchOne_none_of_ctor_fail (w : World) (c : ClusterID)
    (hfail : w.serviceControllerNew c = false ∨ w.nodeControllerNew c = false)
    (gen now : Nat) : (launchOne w c gen now).handle = none := by
  cases hh : (launchOne w c gen now).handle with
  | none => rfl
  | some id =>
    obtain ⟨h1, h2⟩ := launchOne_some_imp w c gen now id hh
    rcases hfail with hf | hf
    · rw [hf] at h1; simp at h1
    · rw [hf] at h2; simp at h2

theorem mem_keys_iff (st : FleetState) (c : ClusterID) :
    c ∈ keys st ↔ ∃ id, (c, id) ∈ st := by
  constructor
  · intro h
    obtain ⟨⟨a, b⟩, hp, he⟩ := List.mem_map.mp h
    exact ⟨b, by simp only [Prod.fst] at he; rw [← he]; exact hp⟩
  · rintro ⟨id, h⟩
    exact List.mem_map.mpr ⟨(c, id), h, rfl⟩

theorem addClusters_not_mem_of_launch_fail (w : World) (c : ClusterID)
    (hfail : ∀ gen now, (launchOne w c gen now).handle = none) :
    ∀ (cl : List ClusterID) (st : FleetState) (gen now : Nat),
      c ∉ keys st → c ∉ keys (addClusters w cl st gen now).st := by
  intro cl
  induction cl with
  | nil => intro st gen now h; simpa [addClusters] using h
  | cons c' rest ih =>
    intro st gen now h
    cases hc : ctxDone w now with
    | true => simpa [addClusters, hc] using h
    | false =>
      by_cases hmem : c' ∈ keys st
      · simp only [addClusters, hc, Bool.false_eq_true, if_false, hmem, if_true]
        exact ih st gen now h
      · cases hh : (launchOne w c' gen now).handle with
        | none =>
          simp only [addClusters, hc, Bool.false_eq_true, if_false, hmem, if_true, hh]
          exact ih st (launchOne w c' gen now).gen (launchOne w c' gen now).now h
        | some id =>
          have hne : c ≠ c' := by
            intro he
            rw [← he] at hh
            rw [hfail gen now] at hh
            cases hh
          simp only [addClusters, hc, Bool.false_eq_true, if_false, hmem, if_true, hh]
          refine ih (st ++ [(c', id)]) (launchOne w c' gen now).gen (launchOne w c' gen now).now ?_
          simp only [keys, List.map_append, List.mem_append, List.map_cons, List.map_nil,
            List.mem_singleton]
          rintro (hx | hx)
          · exact h hx
          · exact hne hx

theorem removeClusters_mem (cl : List ClusterID) :
    ∀ (st : FleetState) (p : ClusterID × Nat),
      p ∈ (removeClusters cl st).1 ↔ p ∈ st ∧ p.1 ∈ cl := by
  intro st
  induction st with
  | nil => intro p; simp [removeClusters]
  | cons q rest ih =>
    intro p
    obtain ⟨c, id⟩ := q
    by_cases hq : c ∈ cl
    · simp only [removeClusters, hq, if_true, List.mem_cons, ih]
      constructor
      · rintro (rfl | ⟨h1, h2⟩)
        · exact ⟨Or.inl rfl, hq⟩
        · exact ⟨Or.inr h1, h2⟩
      · rintro ⟨rfl | h1, h2⟩
        · exact Or.inl rfl
        · exact Or.inr ⟨h1, h2⟩
    · simp only [removeClusters, hq, if_false, List.mem_cons, ih]
      constructor
      · rintro ⟨h1, h2⟩
        exact ⟨Or.inr h1, h2⟩
      · rintro ⟨rfl | h1, h2⟩
        · exact absurd h2 hq
        · exact ⟨h1, h2⟩

theorem removeClusters_keys_mem (cl : List ClusterID) (st : FleetState) (c : ClusterID) :
    c ∈ keys (removeClusters cl st).1 ↔ c ∈ keys st ∧ c ∈ cl := by
  rw [mem_keys_iff, mem_keys_iff]
  constructor
  · rintro ⟨id, h⟩
    obtain ⟨h1, h2⟩ := (removeClusters_mem cl st (c, id)).mp h
    exact ⟨⟨id, h1⟩, h2⟩
  · rintro ⟨⟨id, h1⟩, h2⟩
    exact ⟨id, (removeClusters_mem cl st (c, id)).mpr ⟨h1, h2⟩⟩

theorem reconcileWith_not_mem_of_launch_fail (w : World) (c : ClusterID)
    (hfail : ∀ gen now, (launchOne w c gen now).handle = none)
    (cl : List ClusterID) (gen now : Nat) (st : FleetState) (hst : c ∉ keys st) :
    c ∉ keys (reconcileWith w cl gen now st).st := by
  have ha : c ∉ keys (addClusters w cl st gen now).st :=
    addClusters_not_mem_of_launch_fail w c hfail cl st gen now hst
  cases hex : (addClusters w cl st gen now).exited with
  | true =>
    simp only [reconcileWith, hex, if_true]
    exact ha
  | false =>
    simp only [reconcileWith, hex, Bool.false_eq_true, if_false]
    intro hmem
    exact ha ((removeClusters_keys_mem cl _ c).mp hmem).1

theorem reconcileCycle_not_mem_of_launch_fail (w : World) (c : ClusterID)
    (hfail : ∀ gen now, (launchOne w c gen now).handle = none)
    (i gen now : Nat) (st : FleetState) (hst : c ∉ keys st) :
    c ∉ keys (reconcileCycle w i gen now st).st :=
  reconcileWith_not_mem_of_launch_fail w c hfail _ gen now st hst

theorem cancelCount_append (id : Nat) (l1 l2 : List Event) :
    cancelCount id (l1 ++ l2) = cancelCount id l1 + cancelCount id l2 := by
  simp [cancelCount]

theorem addClusters_cons_skip (w : World) (c' : ClusterID) (rest : List ClusterID)
    (st : FleetState) (gen now : Nat) (hc : ctxDone w now = false) (hmem : c' ∈ keys st) :
    addClusters w (c' :: rest) st gen now = addClusters w rest st gen now := by
  simp [addClusters, hc, hmem]

theorem addClusters_cons_fail (w : World) (c' : ClusterID) (rest : List ClusterID)
    (st : FleetState) (gen now : Nat) (hc : ctxDone w now = false) (hmem : c' ∉ keys st)
    (hh : (launchOne w c' gen now).handle = none) :
    addClusters w (c' :: rest) st gen now =
      { addClusters w rest st (launchOne w c' gen now).gen (launchOne w c' gen now).now with
        events := (launchOne w c' gen now).events ++
          (addClusters w rest st (launchOne w c' gen now).gen
            (launchOne w c' gen now).now).events } := by
  simp [addClusters, hc, hmem, hh]

theorem addClusters_cons_ok (w : World) (c' : ClusterID) (rest : List ClusterID)
    (st : FleetState) (gen now id0 : Nat) (hc : ctxDone w now = false) (hmem : c' ∉ keys st)
    (hh : (launchOne w c' gen now).handle = some id0) :
    addClusters w (c' :: rest) st gen now =
      { addClusters w rest (st ++ [(c', id0)]) (launchOne w c' gen now).gen
          (launchOne w c' gen now).now with
        events := (launchOne w c' gen now).events ++
          (addClusters w rest (st ++ [(c', id0)]) (launchOne w c' gen now).gen
            (launchOne w c' gen now).now).events } := by
  simp [addClusters, hc, hmem, hh]

theorem launchOne_handle_some_eq (w : World) (c' : ClusterID) (gen now id0 : Nat)
    (hh : (launchOne w c' gen now).handle = some id0) : id0 = gen := by
  rcases launchOne_cases w c' gen now with ⟨h1, _, _⟩ | ⟨h1, _, _⟩ | ⟨h1, _, _⟩
  · rw [h1] at hh; cases hh
  · rw [h1] at hh; cases hh
  · exact (Option.some.inj (h1.symm.trans hh)).symm

theorem launchOne_launched_mem (w : World) (c' : ClusterID) (gen now : Nat)
    (c : ClusterID) (id : Nat) :
    Event.launched c id ∈ (launchOne w c' gen now).events ↔
      c = c' ∧ id = gen ∧ (launchOne w c' gen now).handle = some gen := by
  rcases launchOne_cases w c' gen now with ⟨h1, h2, _⟩ | ⟨h1, h2, _⟩ | ⟨h1, h2, _⟩ <;>
    rw [h2] <;> simp [h1]

theorem launchOne_bootstrap_mem (w : World) (c' : ClusterID) (gen now : Nat) (c : ClusterID) :
    Event.bootstrapAttempt c ∈ (launchOne w c' gen now).events ↔ c = c' := by
  rcases launchOne_cases w c' gen now with ⟨_, h2, _⟩ | ⟨_, h2, _⟩ | ⟨_, h2, _⟩ <;>
    rw [h2] <;> simp

theorem launchOne_gen_le (w : World) (c' : ClusterID) (gen now : Nat) :
    gen ≤ (launchOne w c' gen now).gen := by
  rcases launchOne_cases w c' gen now with ⟨_, _, h3⟩ | ⟨_, _, h3⟩ | ⟨_, _, h3⟩ <;>
    rw [h3] <;> omega

theorem launchOne_cancelCount (w : World) (c' : ClusterID) (gen now id : Nat) (hid : id < gen) :
    cancelCount id (launchOne w c' gen now).events = 0 := by
  rcases launchOne_cases w c' gen now with ⟨_, h2, _⟩ | ⟨_, h2, _⟩ | ⟨_, h2, _⟩ <;> rw [h2]
  · simp [cancelCount, eventCancelWeight]
  · simp [cancelCount, eventCancelWeight, (show gen ≠ id from by omega)]
  · simp [cancelCount, eventCancelWeight]

theorem addClusters_exited_false (w : World) (hcancel : w.cancelAt = none) :
    ∀ (cl : List ClusterID) (st : FleetState) (gen now : Nat),
      (addClusters w cl st gen now).exited = false := by
  intro cl
  induction cl with
  | nil => intro st gen now; rfl
  | cons c' rest ih =>
    intro st gen now
    have hcd := ctxDone_of_cancelAt_none w hcancel now
    by_cases hmem : c' ∈ keys st
    · rw [addClusters_cons_skip w c' rest st gen now hcd hmem]
      exact ih st gen now
    · cases hh : (launchOne w c' gen now).handle with
      | none =>
        rw [addClusters_cons_fail w c' rest st gen now hcd hmem hh]
        exact ih st _ _
      | some id0 =>
        rw [addClusters_cons_ok w c' rest st gen now id0 hcd hmem hh]
        exact ih (st ++ [(c', id0)]) _ _

theorem addClusters_mem_preserved (w : World) :
    ∀ (cl : List ClusterID) (st : FleetState) (gen now : Nat) (p : ClusterID × Nat),
      p ∈ st → p ∈ (addClusters w cl st gen now).st := by
  intro cl
  induction cl with
  | nil => intro st gen now p h; exact h
  | cons c' rest ih =>
    intro st gen now p h
    cases hcd : ctxDone w now with
    | true => simpa [addClusters, hcd] using h
    | false =>
      by_cases hmem : c' ∈ keys st
      · rw [addClusters_cons_skip w c' rest st gen now hcd hmem]
        exact ih st gen now p h
      · cases hh : (launchOne w c' gen now).handle with
        | none =>
          rw [addClusters_cons_fail w c' rest st gen now hcd hmem hh]
          exact ih st _ _ p h
        | some id0 =>
          rw [addClusters_cons_ok w c' rest st gen now id0 hcd hmem hh]
          exact ih (st ++ [(c', id0)]) _ _ p (List.mem_append_left _ h)

theorem addClusters_gen_le (w : World) :
    ∀ (cl : List ClusterID) (st : FleetState) (gen now : Nat),
      gen ≤ (addClusters w cl st gen now).gen := by
  intro cl
  induction cl with
  | nil => intro st gen now; exact le_refl gen
  | cons c' rest ih =>
    intro st gen now
    cases hcd : ctxDone w now with
    | true => simp [addClusters, hcd]
    | false =>
      by_cases hmem : c' ∈ keys st
      · rw [addClusters_cons_skip w c' rest st gen now hcd hmem]
        exact ih st gen now
      · cases hh : (launchOne w c' gen now).handle with
        | none =>
          rw [addClusters_cons_fail w c' rest st gen now hcd hmem hh]
          exact le_trans (launchOne_gen_le w c' gen now) (ih st _ _)
        | some id0 =>
          rw [addClusters_cons_ok w c' rest st gen now id0 hcd hmem hh]
          exact le_trans (launchOne_gen_le w c' gen now) (ih (st ++ [(c', id0)]) _ _)

theorem addClusters_cancelCount (w : World) :
    ∀ (cl : List ClusterID) (st : FleetState) (gen now id : Nat), id < gen →
      cancelCount id (addClusters w cl st gen now).events = 0 := by
  intro cl
  induction cl with
  | nil => intro st gen now id _; rfl
  | cons c' rest ih =>
    intro st gen now id hid
    cases hcd : ctxDone w now with
    | true => simp [addClusters, hcd, cancelCount]
    | false =>
      by_cases hmem : c' ∈ keys st
      · rw [addClusters_cons_skip w c' rest st gen now hcd hmem]
        exact ih st gen now id hid
      · have hlt : id < (launchOne w c' gen now).gen :=
          lt_of_lt_of_le hid (launchOne_gen_le w c' gen now)
        cases hh : (launchOne w c' gen now).handle with
        | none =>
          rw [addClusters_cons_fail w c' rest st gen now hcd hmem hh]
          dsimp only
          rw [cancelCount_append, launchOne_cancelCount w c' gen now id hid,
            ih st _ _ id hlt]
        | some id0 =>
          rw [addClusters_cons_ok w c' rest st gen now id0 hcd hmem hh]
          dsimp only
          rw [cancelCount_append, launchOne_cancelCount w c' gen now id hid,
            ih (st ++ [(c', id0)]) _ _ id hlt]

theorem addClusters_fresh (w : World) :
    ∀ (cl : List ClusterID) (st : FleetState) (gen now : Nat), (∀ p ∈ st, p.2 < gen) →
      ∀ p ∈ (addClusters w cl st gen now).st, p.2 < (addClusters w cl st gen now).gen := by
  intro cl
  induction cl with
  | nil => intro st gen now h p hp; exact h p hp
  | cons c' rest ih =>
    intro st gen now h
    cases hcd : ctxDone w now with
    | true =>
      simp only [addClusters, hcd, if_true]
      exact h
    | false =>
      by_cases hmem : c' ∈ keys st
      · rw [addClusters_cons_skip w c' rest st gen now hcd hmem]
        exact ih st gen now h
      · cases hh : (launchOne w c' gen now).handle with
        | none =>
          rw [addClusters_cons_fail w c' rest st gen now hcd hmem hh]
          refine ih st _ _ fun p hp => ?_
          exact lt_of_lt_of_le (h p hp) (launchOne_gen_le w c' gen now)
        | some id0 =>
          obtain rfl : gen = id0 := (launchOne_handle_some_eq w c' gen now id0 hh).symm
          have hgen1 : (launchOne w c' gen now).gen = gen + 1 := by
            rcases launchOne_cases w c' gen now with ⟨h1, _, _⟩ | ⟨_, _, h3⟩ | ⟨_, _, h3⟩
            · rw [h1] at hh; cases hh
            · exact h3
            · exact h3
          rw [addClusters_cons_ok w c' rest st gen now gen hcd hmem hh]
          refine ih (st ++ [(c', gen)]) _ _ fun p hp => ?_
          rw [hgen1]
          rcases List.mem_append.mp hp with h1 | h1
          · exact lt_trans (h p h1) (Nat.lt_succ_self gen)
          · simp only [List.mem_singleton] at h1
            rw [h1]
            exact Nat.lt_succ_self gen

theorem addClusters_snd_nodup (w : World) :
    ∀ (cl : List ClusterID) (st : FleetState) (gen now : Nat),
      (st.map Prod.snd).Nodup → (∀ p ∈ st, p.2 < gen) →
      ((addClusters w cl st gen now).st.map Prod.snd).Nodup := by
  intro cl
  induction cl with
  | nil => intro st gen now h _; exact h
  | cons c' rest ih =>
    intro st gen now h hfresh
    cases hcd : ctxDone w now with
    | true => simpa [addClusters, hcd] using h
    | false =>
      by_cases hmem : c' ∈ keys st
      · rw [addClusters_cons_skip w c' rest st gen now hcd hmem]
        exact ih st gen now h hfresh
      · cases hh : (launchOne w c' gen now).handle with
        | none =>
          rw [addClusters_cons_fail w c' rest st gen now hcd hmem hh]
          exact ih st _ _ h fun p hp =>
            lt_of_lt_of_le (hfresh p hp) (launchOne_gen_le w c' gen now)
        | some id0 =>
          obtain rfl : gen = id0 := (launchOne_handle_some_eq w c' gen now id0 hh).symm
          have hgen1 : (launchOne w c' gen now).gen = gen + 1 := by
            rcases launchOne_cases w c' gen now with ⟨h1, _, _⟩ | ⟨_, _, h3⟩ | ⟨_, _, h3⟩
            · rw [h1] at hh; cases hh
            · exact h3
            · exact h3
          rw [addClusters_cons_ok w c' rest st gen now gen hcd hmem hh]
          refine ih (st ++ [(c', gen)]) _ _ ?_ ?_
          · simp only [List.map_append, List.map_cons, List.map_nil]
            rw [List.nodup_append]
            refine ⟨h, List.nodup_singleton gen, fun a ha hb => ?_⟩
            simp only [List.mem_singleton] at hb
            obtain ⟨p, hp, hpa⟩ := List.mem_map.mp ha
            have := hfresh p hp
            omega
          · intro p hp
            rw [hgen1]
            rcases List.mem_append.mp hp with h1 | h1
            · exact lt_trans (hfresh p h1) (Nat.lt_succ_self gen)
            · simp only [List.mem_singleton] at h1
              rw [h1]
              exact Nat.lt_succ_self gen

theorem addClusters_keys_nodup (w : World) :
    ∀ (cl : List ClusterID) (st : FleetState) (gen now : Nat),
      (keys st).Nodup → (keys (addClusters w cl st gen now).st).Nodup := by
  intro cl
  induction cl with
  | nil => intro st gen now h; exact h
  | cons c' rest ih =>
    intro st gen now h
    cases hcd : ctxDone w now with
    | true => simpa [addClusters, hcd] using h
    | false =>
      by_cases hmem : c' ∈ keys st
      · rw [addClusters_cons_skip w c' rest st gen now hcd hmem]
        exact ih st gen now h
      · cases hh : (launchOne w c' gen now).handle with
        | none =>
          rw [addClusters_cons_fail w c' rest st gen now hcd hmem hh]
          exact ih st _ _ h
        | some id0 =>
          rw [addClusters_cons_ok w c' rest st gen now id0 hcd hmem hh]
          refine ih (st ++ [(c', id0)]) _ _ ?_
          simp only [keys, List.map_append, List.map_cons, List.map_nil]
          rw [List.nodup_append]
          exact ⟨h, List.nodup_singleton c', fun a ha hb => by
            simp only [List.mem_singleton] at hb
            rw [hb] at ha
            exact hmem ha⟩

theorem addClusters_keys_iff (w : World) (hcancel : w.cancelAt = none) :
    ∀ (cl : List ClusterID) (st : FleetState) (gen now : Nat) (c : ClusterID),
      c ∈ keys (addClusters w cl st gen now).st ↔
        c ∈ keys st ∨ ∃ id, Event.launched c id ∈ (addClusters w cl st gen now).events := by
  intro cl
  induction cl with
  | nil => intro st gen now c; simp [addClusters]
  | cons c' rest ih =>
    intro st gen now c
    have hcd := ctxDone_of_cancelAt_none w hcancel now
    by_cases hmem : c' ∈ keys st
    · rw [addClusters_cons_skip w c' rest st gen now hcd hmem]
      exact ih st gen now c
    · cases hh : (launchOne w c' gen now).handle with
      | none =>
        rw [addClusters_cons_fail w c' rest st gen now hcd hmem hh]
        dsimp only
        rw [ih st (launchOne w c' gen now).gen (launchOne w c' gen now).now c]
        constructor
        · rintro (h1 | ⟨id, h2⟩)
          · exact Or.inl h1
          · exact Or.inr ⟨id, List.mem_append_right _ h2⟩
        · rintro (h1 | ⟨id, h2⟩)
          · exact Or.inl h1
          · rcases List.mem_append.mp h2 with h3 | h3
            · obtain ⟨rfl, rfl, h4⟩ := (launchOne_launched_mem w c' gen now c id).mp h3
              rw [hh] at h4
              cases h4
            · exact Or.inr ⟨id, h3⟩
      | some id0 =>
        obtain rfl : gen = id0 := (launchOne_handle_some_eq w c' gen now id0 hh).symm
        rw [addClusters_cons_ok w c' rest st gen now gen hcd hmem hh]
        dsimp only
        rw [ih (st ++ [(c', gen)]) (launchOne w c' gen now).gen (launchOne w c' gen now).now c]
        have hkeys : keys (st ++ [(c', gen)]) = keys st ++ [c'] := by
          simp [keys]
        constructor
        · rintro (h1 | ⟨id, h2⟩)
          · rw [hkeys] at h1
            rcases List.mem_append.mp h1 with h3 | h3
            · exact Or.inl h3
            · have hcc : c = c' := by simpa using h3
              refine Or.inr ⟨gen, List.mem_append_left _ ?_⟩
              rw [launchOne_launched_mem]
              exact ⟨hcc, rfl, hh⟩
          · exact Or.inr ⟨id, List.mem_append_right _ h2⟩
        · rintro (h1 | ⟨id, h2⟩)
          · left
            rw [hkeys]
            exact List.mem_append_left _ h1
          · rcases List.mem_append.mp h2 with h3 | h3
            · obtain ⟨rfl, rfl, _⟩ := (launchOne_launched_mem w c' gen now c id).mp h3
              left
              rw [hkeys]
              exact List.mem_append_right _ (by simp)
            · exact Or.inr ⟨id, h3⟩

theorem addClusters_no_events_for_present (w : World) :
    ∀ (cl : List ClusterID) (st : FleetState) (gen now : Nat) (c : ClusterID), c ∈ keys st →
      Event.bootstrapAttempt c ∉ (addClusters w cl st gen now).events ∧
      ∀ id, Event.launched c id ∉ (addClusters w cl st gen now).events := by
  intro cl
  induction cl with
  | nil => intro st gen now c _; simp [addClusters]
  | cons c' rest ih =>
    intro st gen now c h
    cases hcd : ctxDone w now with
    | true => simp [addClusters, hcd]
    | false =>
      by_cases hmem : c' ∈ keys st
      · rw [addClusters_cons_skip w c' rest st gen now hcd hmem]
        exact ih st gen now c h
      · have hne : c ≠ c' := fun he => hmem (he ▸ h)
        cases hh : (launchOne w c' gen now).handle with
        | none =>
          rw [addClusters_cons_fail w c' rest st gen now hcd hmem hh]
          dsimp only
          obtain ⟨ihb, ihl⟩ := ih st (launchOne w c' gen now).gen (launchOne w c' gen now).now c h
          constructor
          · intro hmem2
            rcases List.mem_append.mp hmem2 with h3 | h3
            · exact hne ((launchOne_bootstrap_mem w c' gen now c).mp h3)
            · exact ihb h3
          · intro id hmem2
            rcases List.mem_append.mp hmem2 with h3 | h3
            · exact hne ((launchOne_launched_mem w c' gen now c id).mp h3).1
            · exact ihl id h3
        | some id0 =>
          rw [addClusters_cons_ok w c' rest st gen now id0 hcd hmem hh]
          dsimp only
          have hmem' : c ∈ keys (st ++ [(c', id0)]) := by
            simp only [keys, List.map_append]
            exact List.mem_append_left _ h
          obtain ⟨ihb, ihl⟩ := ih (st ++ [(c', id0)]) (launchOne w c' gen now).gen
            (launchOne w c' gen now).now c hmem'
          constructor
          · intro hmem2
            rcases List.mem_append.mp hmem2 with h3 | h3
            · exact hne ((launchOne_bootstrap_mem w c' gen now c).mp h3)
            · exact ihb h3
          · intro id hmem2
            rcases List.mem_append.mp hmem2 with h3 | h3
            · exact hne ((launchOne_launched_mem w c' gen now c id).mp h3).1
            · exact ihl id h3

theorem removeClusters_events_shape (cl : List ClusterID) :
    ∀ (st : FleetState), ∀ e ∈ (removeClusters cl st).2, ∃ j, e = Event.invokedCancel j := by
  intro st
  induction st with
  | nil => intro e he; simp [removeClusters] at he
  | cons q rest ih =>
    intro e he
    obtain ⟨c, id⟩ := q
    by_cases hq : c ∈ cl
    · rw [show removeClusters cl ((c, id) :: rest) =
        (((c, id) :: (removeClusters cl rest).1), (removeClusters cl rest).2) by
          simp [removeClusters, hq]] at he
      exact ih e he
    · rw [show removeClusters cl ((c, id) :: rest) =
        ((removeClusters cl rest).1, .invokedCancel id :: (removeClusters cl rest).2) by
          simp [removeClusters, hq]] at he
      rcases List.mem_cons.mp he with h1 | h1
      · exact ⟨id, h1⟩
      · exact ih e h1

theorem cancelCount_invokedCancel_cons (id j : Nat) (l : List Event) :
    cancelCount id (Event.invokedCancel j :: l) =
      (if j = id then 1 else 0) + cancelCount id l := by
  simp [cancelCount, eventCancelWeight]

theorem removeClusters_cancelCount_zero (cl : List ClusterID) :
    ∀ (st : FleetState) (id : Nat), id ∉ st.map Prod.snd →
      cancelCount id (removeClusters cl st).2 = 0 := by
  intro st
  induction st with
  | nil => intro id _; rfl
  | cons q rest ih =>
    intro id h
    obtain ⟨c, id'⟩ := q
    simp only [List.map_cons, List.mem_cons] at h
    push_neg at h
    obtain ⟨h1, h2⟩ := h
    by_cases hq : c ∈ cl
    · rw [show (removeClusters cl ((c, id') :: rest)).2 = (removeClusters cl rest).2 by
        simp [removeClusters, hq]]
      exact ih id h2
    · rw [show (removeClusters cl ((c, id') :: rest)).2 =
        .invokedCancel id' :: (removeClusters cl rest).2 by simp [removeClusters, hq]]
      rw [cancelCount_invokedCancel_cons, ih id h2, if_neg (fun he => h1 he.symm)]

theorem removeClusters_cancelCount_removed (cl : List ClusterID) :
    ∀ (st : FleetState) (c : ClusterID) (id : Nat), (st.map Prod.snd).Nodup →
      (c, id) ∈ st → c ∉ cl →
      cancelCount id (removeClusters cl st).2 = 1 := by
  intro st
  induction st with
  | nil => intro c id _ h _; simp at h
  | cons q rest ih =>
    intro c id hnd hmem hcl
    obtain ⟨c0, id0⟩ := q
    simp only [List.map_cons, List.nodup_cons] at hnd
    obtain ⟨hnd1, hnd2⟩ := hnd
    rcases List.mem_cons.mp hmem with h1 | h1
    · rw [Prod.mk.injEq] at h1
      obtain ⟨rfl, rfl⟩ := h1
      rw [show (removeClusters cl ((c, id) :: rest)).2 =
        .invokedCancel id :: (removeClusters cl rest).2 by simp [removeClusters, hcl]]
      rw [cancelCount_invokedCancel_cons, if_pos rfl,
        removeClusters_cancelCount_zero cl rest id hnd1]
    · have hid : id0 ≠ id := by
        intro he
        rw [he] at hnd1
        exact hnd1 (List.mem_map.mpr ⟨(c, id), h1, rfl⟩)
      by_cases hq : c0 ∈ cl
      · rw [show (removeClusters cl ((c0, id0) :: rest)).2 = (removeClusters cl rest).2 by
          simp [removeClusters, hq]]
        exact ih c id hnd2 h1 hcl
      · rw [show (removeClusters cl ((c0, id0) :: rest)).2 =
          .invokedCancel id0 :: (removeClusters cl rest).2 by simp [removeClusters, hq]]
        rw [cancelCount_invokedCancel_cons, if_neg hid, ih c id hnd2 h1 hcl]

theorem removeClusters_cancelCount_kept (cl : List ClusterID) :
    ∀ (st : FleetState) (c : ClusterID) (id : Nat), (st.map Prod.snd).Nodup →
      (c, id) ∈ st → c ∈ cl →
      cancelCount id (removeClusters cl st).2 = 0 := by
  intro st
  induction st with
  | nil => intro c id _ h _; simp at h
  | cons q rest ih =>
    intro c id hnd hmem hcl
    obtain ⟨c0, id0⟩ := q
    simp only [List.map_cons, List.nodup_cons] at hnd
    obtain ⟨hnd1, hnd2⟩ := hnd
    rcases List.mem_cons.mp hmem with h1 | h1
    · rw [Prod.mk.injEq] at h1
      obtain ⟨rfl, rfl⟩ := h1
      rw [show (removeClusters cl ((c, id) :: rest)).2 = (removeClusters cl rest).2 by
        simp [removeClusters, hcl]]
      exact removeClusters_cancelCount_zero cl rest id hnd1
    · have hid : id0 ≠ id := by
        intro he
        rw [he] at hnd1
        exact hnd1 (List.mem_map.mpr ⟨(c, id), h1, rfl⟩)
      by_cases hq : c0 ∈ cl
      · rw [show (removeClusters cl ((c0, id0) :: rest)).2 = (removeClusters cl rest).2 by
          simp [removeClusters, hq]]
        exact ih c id hnd2 h1 hcl
      · rw [show (removeClusters cl ((c0, id0) :: rest)).2 =
          .invokedCancel id0 :: (removeClusters cl rest).2 by simp [removeClusters, hq]]
        rw [cancelCount_invokedCancel_cons, if_neg hid, ih c id hnd2 h1 hcl]

theorem reconcileWith_eq_of_not_exited (w : World) (L : List ClusterID) (gen now : Nat)
    (st : FleetState) (hex : (addClusters w L st gen now).exited = false) :
    reconcileWith w L gen now st =
      { st := (removeClusters L (addClusters w L st gen now).st).1,
        events := (addClusters w L st gen now).events ++
          (removeClusters L (addClusters w L st gen now).st).2,
        gen := (addClusters w L st gen now).gen,
        now := (addClusters w L st gen now).now + 30, exited := false } := by
  simp [reconcileWith, hex]

theorem reconcileCycle_ok (w : World) (i gen now : Nat) (st : FleetState) (L : List ClusterID)
    (hL : w.listClusters i = .ok L) (hex : (addClusters w L st gen now).exited = false) :
    reconcileCycle w i gen now st =
      { st := (removeClusters L (addClusters w L st gen now).st).1,
        events := (addClusters w L st gen now).events ++
          (removeClusters L (addClusters w L st gen now).st).2,
        gen := (addClusters w L st gen now).gen,
        now := (addClusters w L st gen now).now + 30, exited := false } := by
  rw [reconcileCycle, hL]
  exact reconcileWith_eq_of_not_exited w L gen now st hex

theorem addClusters_exited_ctxDone (w : World) :
    ∀ (cl : List ClusterID) (st : FleetState) (gen now : Nat),
      (addClusters w cl st gen now).exited = true →
      ctxDone w (addClusters w cl st gen now).now = true := by
  intro cl
  induction cl with
  | nil => intro st gen now h; cases h
  | cons c' rest ih =>
    intro st gen now
    cases hcd : ctxDone w now with
    | true => simp [addClusters, hcd]
    | false =>
      by_cases hmem : c' ∈ keys st
      · rw [addClusters_cons_skip w c' rest st gen now hcd hmem]
        exact ih st gen now
      · cases hh : (launchOne w c' gen now).handle with
        | none =>
          rw [addClusters_cons_fail w c' rest st gen now hcd hmem hh]
          exact ih st _ _
        | some id0 =>
          rw [addClusters_cons_ok w c' rest st gen now id0 hcd hmem hh]
          exact ih (st ++ [(c', id0)]) _ _

theorem reconcileWith_exited_false (w : World) (hcancel : w.cancelAt = none)
    (cl : List ClusterID) (gen now : Nat) (st : FleetState) :
    (reconcileWith w cl gen now st).exited = false := by
  simp [reconcileWith, addClusters_exited_false w hcancel cl st gen now]

theorem reconcileCycle_exited_false (w : World) (hcancel : w.cancelAt = none)
    (i gen now : Nat) (st : FleetState) :
    (reconcileCycle w i gen now st).exited = false :=
  reconcileWith_exited_false w hcancel _ gen now st

theorem reconcileWith_exited_ctxDone (w : World) (cl : List ClusterID) (gen now : Nat)
    (st : FleetState) :
    (reconcileWith w cl gen now st).exited = true →
      ctxDone w (reconcileWith w cl gen now st).now = true := by
  cases hex : (addClusters w cl st gen now).exited with
  | true =>
    simp only [reconcileWith, hex, if_true]
    intro _
    exact addClusters_exited_ctxDone w cl st gen now hex
  | false =>
    simp only [reconcileWith, hex, Bool.false_eq_true, if_false]
    intro h
    cases h

theorem reconcileCycle_exited_ctxDone (w : World) (i gen now : Nat) (st : FleetState) :
    (reconcileCycle w i gen now st).exited = true →
      ctxDone w (reconcileCycle w i gen now st).now = true :=
  reconcileWith_exited_ctxDone w _ gen now st

theorem runAux_no_cancel (w : World) (hcancel : w.cancelAt = none) :
    ∀ (fuel i gen now : Nat) (st : FleetState),
      (runAux w fuel i gen now st).outcome = .outOfFuel := by
  intro fuel
  induction fuel with
  | zero => intro i gen now st; rfl
  | succ fuel ih =>
    intro i gen now st
    have hcd := ctxDone_of_cancelAt_none w hcancel now
    have hex := reconcileCycle_exited_false w hcancel i gen now st
    simp only [runAux, hcd, Bool.false_eq_true, if_false, hex]
    exact ih _ _ _ _

theorem runAux_terminated_ctxDone (w : World) :
    ∀ (fuel i gen now : Nat) (st : FleetState),
      (runAux w fuel i gen now st).outcome = .terminated →
      ctxDone w (runAux w fuel i gen now st).now = true := by
  intro fuel
  induction fuel with
  | zero => intro i gen now st h; cases h
  | succ fuel ih =>
    intro i gen now st
    cases hcd : ctxDone w now with
    | true => simp [runAux, hcd]
    | false =>
      simp only [runAux, hcd, Bool.false_eq_true, if_false]
      cases hex : (reconcileCycle w i gen now st).exited with
      | true =>
        simp only [hex, if_true]
        intro _
        exact reconcileCycle_exited_ctxDone w i gen now st hex
      | false =>
        simp only [hex, Bool.false_eq_true, if_false]
        exact ih _ _ _ _

/-! Claim theorems -/

/-- C6: `probeHTTP` returns true for any completed HTTP exchange regardless
of the response status code (a 503 response still counts as reachable),
returns false on any transport-level failure, and fully drains the response
body before returning on the success path. -/
theorem C6_probeHTTP_reachability :
    (∀ resp : HTTPResponse, probeHTTP (.ok resp) = { reachable := true, bodyDrained := true }) ∧
    probeHTTP (.ok { statusCode := 503 }) = { reachable := true, bodyDrained := true } ∧
    (∀ e : TransportError, probeHTTP (.error e) = { reachable := false, bodyDrained := false }) :=
  ⟨fun _ => rfl, rfl, fun _ => rfl⟩

/-- C10: if listing the labelled containers fails, `cleanup` returns without
attempting any deletion; when the listing succeeds, every listed container's
deletion is attempted, regardless of individual deletion failures. -/
theorem C10_cleanup_listing_failure (w : World) :
    (∀ e, w.containersByLabel = .error e → (cleanup w).attempted = []) ∧
    (∀ ids, w.containersByLabel = .ok ids → (cleanup w).attempted.map Prod.fst = ids) := by
  constructor
  · intro e h
    simp [cleanup, h]
  · intro ids h
    simp [cleanup, h, deleteLoop_map_fst]

theorem C10_cleanup_listing_failure_witness :
    Wclean.containersByLabel = .error () ∧ (cleanup Wclean).attempted = [] :=
  ⟨rfl, (C10_cleanup_listing_failure Wclean).1 () rfl⟩

/-- C5: for each endpoint variant the bootstrap performs at most 5 probe
attempts, the executed backoff sleeps are the linearly increasing head of
0,1,2,3,4 seconds, no probe attempt is made at or after the instant the
cancellation signal fires, and when the probe loop observes the signal the
whole bootstrap aborts with the caller's cancellation error (trying no
further variant). -/
theorem C5_probe_bounded_backoff_cancel (w : World) (host : String) (now : Nat) :
    (probeLoop w host now).attempts.length ≤ 5 ∧
    (∃ k, k ≤ 5 ∧ (probeLoop w host now).sleeps = List.take k [0, 1, 2, 3, 4]) ∧
    (∀ a ∈ (probeLoop w host now).attempts, ctxDone w a = false) ∧
    ((probeLoop w host now).canceled = true → ctxDone w (probeLoop w host now).now = true) ∧
    (∀ (cluster : ClusterID) (internal : Bool) (rest : List Bool) (kconfig : String)
        (config : RESTConfig),
      w.kubeConfig cluster internal = .ok kconfig →
      w.restConfigFromKubeConfig kconfig = .ok config →
      (probeLoop w config.host now).canceled = true →
      (getKubeClientAux w cluster (internal :: rest) now).result = .error .ctxCanceled) := by
  refine ⟨probeLoopAux_attempts_length_le w host 5 0 now, ?_,
    probeLoopAux_attempts_not_ctxDone w host 5 0 now,
    probeLoopAux_canceled_ctxDone w host 5 0 now,
    fun cluster internal rest kconfig config hk hr hp =>
      getKubeClientAux_probe_canceled w cluster internal rest now kconfig config hk hr hp⟩
  refine ⟨(probeLoop w host now).sleeps.length, probeLoopAux_sleeps_length_le w host 5 0 now, ?_⟩
  have h1 := probeLoopAux_sleeps_range w host 5 0 now
  have h2 := take_range_five (probeLoop w host now).sleeps.length
    (probeLoopAux_sleeps_length_le w host 5 0 now)
  exact h1.trans h2

theorem C5_probe_bounded_backoff_cancel_witness :
    (probeLoop Wcancel2 "h" 0).canceled = true ∧
    Wcancel2.kubeConfig "kind" false = .ok "kc" ∧
    Wcancel2.restConfigFromKubeConfig "kc" = .ok { host := "h" } ∧
    (ctxDone Wcancel2 (probeLoop Wcancel2 "h" 0).now = true ∧
      (getKubeClientAux Wcancel2 "kind" [false, true] 0).result = .error .ctxCanceled) :=
  ⟨by decide, rfl, rfl,
    (C5_probe_bounded_backoff_cancel Wcancel2 "h" 0).2.2.2.1 (by decide),
    (C5_probe_bounded_backoff_cancel Wcancel2 "h" 0).2.2.2.2 "kind" false [true] "kc"
      { host := "h" } rfl rfl (by decide)⟩

/-- C4 counterexample: in `Wextfail` the external variant's host passes
probing, yet bootstrap returns a client built for the internal variant.
Client construction (`kubernetes.NewForConfig`) can fail after a successful
probe and then falls through to the next variant, so the first variant
whose host passes probing does not necessarily yield the returned client,
contrary to the claim. -/
theorem C4_counterexample :
    Wextfail.kubeConfig "kind" false = .ok "ext" ∧
    Wextfail.restConfigFromKubeConfig "ext" = .ok { host := "hostE" } ∧
    (probeLoop Wextfail "hostE" 0).ok = true ∧
    (getKubeClient Wextfail "kind" 0).result = .ok (true, { host := "hostI" }) := by
  decide

/-- C4 (amended): bootstrap tries the external variant before the internal
one (the variants for which connection material is requested are always a
nonempty head of [external, internal]); a failure to obtain connection
material, to parse it, to reach the configured host, or to construct the
client from the configuration causes fall-through to the next variant; the
first variant whose host passes probing and whose client construction
succeeds yields the client, returned immediately; and when no probe on any
host ever succeeds (and no cancellation fires) bootstrap returns the
"no working clientset" error after exhausting both variants. -/
theorem C4_amended_variant_order (w : World) (c : ClusterID) (now : Nat) :
    ((getKubeClient w c now).variantsTried = [false] ∨
      (getKubeClient w c now).variantsTried = [false, true]) ∧
    (∀ kconfig config,
      w.kubeConfig c false = .ok kconfig →
      w.restConfigFromKubeConfig kconfig = .ok config →
      (probeLoop w config.host now).canceled = false →
      (probeLoop w config.host now).ok = true →
      w.newForConfig config = true →
      (getKubeClient w c now).result = .ok (false, config)) ∧
    (∀ kconfigE configE kconfigI configI,
      w.kubeConfig c false = .ok kconfigE →
      w.restConfigFromKubeConfig kconfigE = .ok configE →
      (probeLoop w configE.host now).canceled = false →
      (probeLoop w configE.host now).ok = true →
      w.newForConfig configE = false →
      w.kubeConfig c true = .ok kconfigI →
      w.restConfigFromKubeConfig kconfigI = .ok configI →
      (probeLoop w configI.host (probeLoop w configE.host now).now).canceled = false →
      (probeLoop w configI.host (probeLoop w configE.host now).now).ok = true →
      w.newForConfig configI = true →
      (getKubeClient w c now).result = .ok (true, configI)) ∧
    ((∀ host t, (probeHTTP (w.httpGet host t)).reachable = false) →
      w.cancelAt = none →
      (getKubeClient w c now).result = .error .noWorkingClientset) := by
  refine ⟨?_, ?_, ?_, ?_⟩
  · obtain ⟨k, h1, h2⟩ := getKubeClientAux_tried_take w c [false, true] now
    match k, h1 with
    | 1, _ => exact Or.inl h2
    | k + 2, _ =>
      right
      rw [getKubeClient, h2]
      simp [List.take_succ_cons]
  · intro kconfig config hk hr hpc hpo hn
    simp [getKubeClient, getKubeClientAux, hk, hr, hpc, hpo, hn]
  · intro kconfigE configE kconfigI configI hkE hrE hpcE hpoE hnE hkI hrI hpcI hpoI hnI
    simp [getKubeClient, getKubeClientAux, hkE, hrE, hpcE, hpoE, hnE, hkI, hrI, hpcI, hpoI, hnI]
  · intro hprobe hcancel
    exact getKubeClientAux_all_unreachable w c hcancel hprobe [false, true] now

theorem C4_amended_variant_order_witness :
    (getKubeClient Whealthy "kind" 0).result = .ok (false, { host := "h" }) ∧
    (getKubeClient Wclean "kind" 0).result = .error .noWorkingClientset :=
  ⟨(C4_amended_variant_order Whealthy "kind" 0).2.1 "kc" { host := "h" } rfl rfl (by decide)
      (by decide) rfl,
    (C4_amended_variant_order Wclean "kind" 0).2.2.2 (fun _ _ => rfl) rfl⟩

/-- C7: the launch first polls the fixed `/healthz` endpoint at 1-second
intervals (attempt times are consecutive seconds), within a 30-second
overall window, succeeding only when the status is exactly 200 (a 503 or
any other status never satisfies it); on timeout the full 30 seconds have
elapsed and the launch returns an error (no handle is produced), and a
cluster whose readiness never arrives is left absent from the cycle's
resulting state — retried by omission on the next cycle — rather than
treated as fatal. -/
theorem C7_readiness_gate (w : World) (c : ClusterID) (now gen : Nat) :
    (pollHealthz w c now).attempts =
      List.range' now (pollHealthz w c now).attempts.length ∧
    (pollHealthz w c now).attempts.length ≤ 30 ∧
    ((pollHealthz w c now).status = .timedOut → (pollHealthz w c now).now = now + 30) ∧
    ((pollHealthz w c now).status = .ready → w.healthz c (pollHealthz w c now).now = 200) ∧
    ((pollHealthz w c now).status ≠ .ready →
      (startCloudControllerManager w c gen now).handle = none) ∧
    ((∀ t, w.healthz c t ≠ 200) → ∀ i g n (st : FleetState), c ∉ keys st →
      c ∉ keys (reconcileCycle w i g n st).st) := by
  refine ⟨pollHealthzAux_attempts_range w c 30 now,
    pollHealthzAux_attempts_length_le w c 30 now,
    pollHealthzAux_timedOut_now w c 30 now,
    pollHealthzAux_ready_healthz w c 30 now,
    fun h => (startCCM_not_ready_none w c gen now h).1,
    fun h i g n st hst => ?_⟩
  exact reconcileCycle_not_mem_of_launch_fail w c
    (fun gen' now' => launchOne_none_of_never200 w c h gen' now') i g n st hst

theorem C7_readiness_gate_witness :
    (pollHealthz Wnothealthy "kind" 0).status = .timedOut ∧
    ((pollHealthz Wnothealthy "kind" 0).now = 0 + 30 ∧
      (startCloudControllerManager Wnothealthy "kind" 0 0).handle = none ∧
      "kind" ∉ keys (reconcileCycle Wnothealthy 0 0 0 []).st) :=
  ⟨by decide,
    (C7_readiness_gate Wnothealthy "kind" 0 0).2.2.1 (by decide),
    (C7_readiness_gate Wnothealthy "kind" 0 0).2.2.2.2.1 (by decide),
    (C7_readiness_gate Wnothealthy "kind" 0 0).2.2.2.2.2 (fun t => by simp [Wnothealthy]) 0 0 0 []
      (by decide)⟩

/-- C8: when a delegated controller's construction fails after a successful
bootstrap, the launch returns an error (no handle); in the node-controller
failure path the partially built instance's cancellation control is invoked
immediately after the already-started service controller goroutine; in
every construction-failure path no started background task is left without
an invocation of its instance's cancellation control; and the cluster
identifier is left absent from the cycle's resulting state, so it is
retried by omission on the next cycle. -/
theorem C8_construction_failure_no_leak (w : World) (c : ClusterID) (gen now : Nat) :
    (w.serviceControllerNew c = false ∨ w.nodeControllerNew c = false →
      (startCloudControllerManager w c gen now).handle = none ∧
      NoLeakedTasks (startCloudControllerManager w c gen now).events) ∧
    ((pollHealthz w c now).status = .ready → w.serviceControllerNew c = true →
      w.nodeControllerNew c = false →
      (startCloudControllerManager w c gen now).events =
        [.startedServiceController gen, .abortCancel gen]) ∧
    (w.serviceControllerNew c = false ∨ w.nodeControllerNew c = false →
      ∀ i g n (st : FleetState), c ∉ keys st →
        c ∉ keys (reconcileCycle w i g n st).st) := by
  refine ⟨fun hfail => ?_, fun hs hsvc hnode => ?_, fun hfail i g n st hst => ?_⟩
  · constructor
    · cases hh : (startCloudControllerManager w c gen now).handle with
      | none => rfl
      | some id =>
        obtain ⟨h1, h2⟩ := startCCM_some_imp w c gen now id hh
        rcases hfail with hf | hf
        · rw [hf] at h1; simp at h1
        · rw [hf] at h2; simp at h2
    · rcases startCCM_cases w c gen now with ⟨_, h2, _⟩ | ⟨_, h2, _⟩ | ⟨h1, _, _⟩
      · rw [h2]
        intro id h
        simp [startedCount, eventStartWeight] at h
      · rw [h2]
        intro id h
        simp only [startedCount, eventStartWeight, List.map_cons, List.map_nil,
          List.sum_cons, List.sum_nil] at h
        simp only [cancelCount, eventCancelWeight, List.map_cons, List.map_nil,
          List.sum_cons, List.sum_nil]
        by_cases hid : gen = id
        · simp [hid]
        · simp [hid] at h
      · obtain ⟨hsvc, hnode⟩ := startCCM_some_imp w c gen now gen h1
        rcases hfail with hf | hf
        · rw [hf] at hsvc; simp at hsvc
        · rw [hf] at hnode; simp at hnode
  · simp [startCloudControllerManager, hs, hsvc, hnode]
  · exact reconcileCycle_not_mem_of_launch_fail w c
      (fun gen' now' => launchOne_none_of_ctor_fail w c hfail gen' now') i g n st hst

theorem C8_construction_failure_no_leak_witness :
    (Wnodefail.serviceControllerNew "kind" = false ∨ Wnodefail.nodeControllerNew "kind" = false) ∧
    (pollHealthz Wnodefail "kind" 0).status = .ready ∧
    (((startCloudControllerManager Wnodefail "kind" 0 0).handle = none ∧
        NoLeakedTasks (startCloudControllerManager Wnodefail "kind" 0 0).events) ∧
      (startCloudControllerManager Wnodefail "kind" 0 0).events =
        [.startedServiceController 0, .abortCancel 0] ∧
      "kind" ∉ keys (reconcileCycle Wnodefail 0 0 0 []).st) :=
  ⟨Or.inr rfl, by decide,
    (C8_construction_failure_no_leak Wnodefail "kind" 0 0).1 (Or.inr rfl),
    (C8_construction_failure_no_leak Wnodefail "kind" 0 0).2.1 (by decide) rfl rfl,
    (C8_construction_failure_no_leak Wnodefail "kind" 0 0).2.2 (Or.inr rfl) 0 0 0 []
      (by decide)⟩

/-- C2: across a reconciliation cycle with a successful listing `L` (and no
cancellation mid-cycle), the fleet state keeps its lifecycle invariant: the
cycle completes; an identifier already present is never bootstrapped or
relaunched; an identifier is a key of the resulting state exactly when it is
listed and either was already running or was successfully launched this
cycle; an identifier absent from the listing is removed within the same
cycle with its instance's cancellation control invoked exactly once; and a
kept instance's cancellation control is not invoked at all. -/
theorem C2_fleet_lifecycle (w : World) (i gen now : Nat) (st : FleetState) (L : List ClusterID)
    (hcancel : w.cancelAt = none)
    (hL : w.listClusters i = .ok L)
    (hids : (st.map Prod.snd).Nodup)
    (hfresh : ∀ p ∈ st, p.2 < gen) :
    (reconcileCycle w i gen now st).exited = false ∧
    (∀ c ∈ keys st, Event.bootstrapAttempt c ∉ (reconcileCycle w i gen now st).events ∧
      ∀ id, Event.launched c id ∉ (reconcileCycle w i gen now st).events) ∧
    (∀ c, c ∈ keys (reconcileCycle w i gen now st).st ↔
      c ∈ L ∧ (c ∈ keys st ∨ ∃ id, Event.launched c id ∈ (reconcileCycle w i gen now st).events)) ∧
    (∀ c id, (c, id) ∈ st → c ∉ L →
      c ∉ keys (reconcileCycle w i gen now st).st ∧
      cancelCount id (reconcileCycle w i gen now st).events = 1) ∧
    (∀ c id, (c, id) ∈ st → c ∈ L →
      cancelCount id (reconcileCycle w i gen now st).events = 0) := by
  have hex : (addClusters w L st gen now).exited = false :=
    addClusters_exited_false w hcancel L st gen now
  rw [reconcileCycle_ok w i gen now st L hL hex]
  dsimp only
  have hancd : ((addClusters w L st gen now).st.map Prod.snd).Nodup :=
    addClusters_snd_nodup w L st gen now hids hfresh
  have hnolaunch : ∀ (c : ClusterID) (id : Nat),
      Event.launched c id ∉ (removeClusters L (addClusters w L st gen now).st).2 := by
    intro c id hmem
    obtain ⟨j, hj⟩ := removeClusters_events_shape L (addClusters w L st gen now).st _ hmem
    cases hj
  refine ⟨rfl, ?_, ?_, ?_, ?_⟩
  · intro c hc
    obtain ⟨hb, hl2⟩ := addClusters_no_events_for_present w L st gen now c hc
    constructor
    · intro hmem
      rcases List.mem_append.mp hmem with h3 | h3
      · exact hb h3
      · obtain ⟨j, hj⟩ := removeClusters_events_shape L (addClusters w L st gen now).st _ h3
        cases hj
    · intro id hmem
      rcases List.mem_append.mp hmem with h3 | h3
      · exact hl2 id h3
      · exact hnolaunch c id h3
  · intro c
    rw [removeClusters_keys_mem, addClusters_keys_iff w hcancel L st gen now c]
    constructor
    · rintro ⟨h1 | ⟨id, h2⟩, h3⟩
      · exact ⟨h3, Or.inl h1⟩
      · exact ⟨h3, Or.inr ⟨id, List.mem_append_left _ h2⟩⟩
    · rintro ⟨h3, h1 | ⟨id, h2⟩⟩
      · exact ⟨Or.inl h1, h3⟩
      · rcases List.mem_append.mp h2 with h4 | h4
        · exact ⟨Or.inr ⟨id, h4⟩, h3⟩
        · exact absurd h4 (hnolaunch c id)
  · intro c id hmem hcl
    have hid : id < gen := hfresh (c, id) hmem
    have hmem' : (c, id) ∈ (addClusters w L st gen now).st :=
      addClusters_mem_preserved w L st gen now (c, id) hmem
    constructor
    · rw [removeClusters_keys_mem]
      rintro ⟨_, h2⟩
      exact hcl h2
    · rw [cancelCount_append, addClusters_cancelCount w L st gen now id hid,
        removeClusters_cancelCount_removed L (addClusters w L st gen now).st c id hancd
          hmem' hcl]
  · intro c id hmem hcl
    have hid : id < gen := hfresh (c, id) hmem
    have hmem' : (c, id) ∈ (addClusters w L st gen now).st :=
      addClusters_mem_preserved w L st gen now (c, id) hmem
    rw [cancelCount_append, addClusters_cancelCount w L st gen now id hid,
      removeClusters_cancelCount_kept L (addClusters w L st gen now).st c id hancd hmem' hcl]

theorem C2_fleet_lifecycle_witness :
    Whealthy.cancelAt = none ∧
    Whealthy.listClusters 0 = .ok ["B", "C"] ∧
    (ST2.map Prod.snd).Nodup ∧
    (∀ p ∈ ST2, p.2 < 2) ∧
    ((reconcileCycle Whealthy 0 2 0 ST2).exited = false ∧
      (∀ c ∈ keys ST2, Event.bootstrapAttempt c ∉ (reconcileCycle Whealthy 0 2 0 ST2).events ∧
        ∀ id, Event.launched c id ∉ (reconcileCycle Whealthy 0 2 0 ST2).events) ∧
      (∀ c, c ∈ keys (reconcileCycle Whealthy 0 2 0 ST2).st ↔
        c ∈ ["B", "C"] ∧ (c ∈ keys ST2 ∨
          ∃ id, Event.launched c id ∈ (reconcileCycle Whealthy 0 2 0 ST2).events)) ∧
      (∀ c id, (c, id) ∈ ST2 → c ∉ ["B", "C"] →
        c ∉ keys (reconcileCycle Whealthy 0 2 0 ST2).st ∧
        cancelCount id (reconcileCycle Whealthy 0 2 0 ST2).events = 1) ∧
      (∀ c id, (c, id) ∈ ST2 → c ∈ ["B", "C"] →
        cancelCount id (reconcileCycle Whealthy 0 2 0 ST2).events = 0)) :=
  ⟨rfl, rfl, by decide, by decide,
    C2_fleet_lifecycle Whealthy 0 2 0 ST2 ["B", "C"] rfl rfl (by decide) (by decide)⟩

/-- C1 (code behaviour at the failing input): with one instance running for
cluster "kind" and the discovery listing failing for the cycle, the cycle is
not an empty delta: the code falls through to the removal sweep with the nil
cluster list, invokes the instance's cancellation control and empties the
fleet state.  The cycle's entire event trace is that one spurious
cancellation. -/
theorem C1_listing_failure_cancels_instances :
    Wlistfail.listClusters 0 = .error () ∧
    (reconcileCycle Wlistfail 0 1 0 [("kind", 0)]).st = [] ∧
    (reconcileCycle Wlistfail 0 1 0 [("kind", 0)]).events = [Event.invokedCancel 0] := by
  decide

/-- C9: the reconciliation loop returns only when the process-level
cancellation signal has fired (its two `return` paths are both guarded by
`ctx.Done()`), and upon returning it runs the deferred cleanup exactly once;
when the signal never fires, no listing, bootstrap or launch error ever
terminates the loop — it merely exhausts the modelling fuel still running —
and the deferred cleanup has not run. -/
theorem C9_terminates_only_on_cancel (w : World) (fuel : Nat) :
    ((run w fuel).outcome = .terminated →
      ctxDone w (run w fuel).now = true ∧ (run w fuel).cleanups = [cleanup w]) ∧
    (w.cancelAt = none →
      (run w fuel).outcome = .outOfFuel ∧ (run w fuel).cleanups = []) := by
  constructor
  · intro h
    cases ho : (runAux w fuel 0 0 0 []).outcome with
    | terminated =>
      have hc := runAux_terminated_ctxDone w fuel 0 0 0 [] ho
      constructor
      · simpa [run, ho] using hc
      · simp [run, ho]
    | outOfFuel => simp [run, ho] at h
  · intro hcancel
    have hn := runAux_no_cancel w hcancel fuel 0 0 0 []
    exact ⟨by simp [run, hn], by simp [run, hn]⟩

theorem C9_terminates_only_on_cancel_witness :
    (run Wcancel0 1).outcome = .terminated ∧
    (ctxDone Wcancel0 (run Wcancel0 1).now = true ∧
      (run Wcancel0 1).cleanups = [cleanup Wcancel0]) ∧
    Wclean.cancelAt = none ∧
    ((run Wclean 1).outcome = .outOfFuel ∧ (run Wclean 1).cleanups = []) :=
  ⟨by decide, (C9_terminates_only_on_cancel Wcancel0 1).1 (by decide), rfl,
    (C9_terminates_only_on_cancel Wclean 1).2 rfl⟩

/-- C3 counterexample: in `Wsleepcancel` the cancellation signal fires at
time 1, during the first 30-second inter-cycle sleep (the listing is empty,
so the sleep is the only wait in progress).  The loop nevertheless sleeps to
the nominal end of the interval and only returns at time 30: the blocking
wait did not observe the signal and did not return promptly when it fired. -/
theorem C3_counterexample :
    Wsleepcancel.cancelAt = some 1 ∧
    (run Wsleepcancel 2).outcome = .terminated ∧
    (run Wsleepcancel 2).now = 30 ∧
    (run Wsleepcancel 2).events = [] := by
  decide

/-- C3 (amended): cancellation is observed at the reconciler's explicit
checkpoints, not inside its sleeps.  Once the signal has fired: the
readiness poll aborts at its next 1-second check with the context's error
and performs no health attempt at or after the signal; the probe loop
aborts at the check before the next probe attempt; and the outer loop
returns at its top-of-loop check.  The 30-second inter-cycle sleep and the
probe backoff sleeps themselves run to their nominal duration (see the
counterexample), the signal being acted on only at the next checkpoint. -/
theorem C3_amended_cancellation_checkpoints (w : World) (c : ClusterID) (host : String)
    (r i fuel cycleIdx gen now : Nat) (st : FleetState) (h : ctxDone w now = true) :
    pollHealthz w c now = { status := .canceled, attempts := [], now := now } ∧
    probeLoopAux w host (r + 1) i now =
      { ok := false, canceled := true, attempts := [], sleeps := [], now := now } ∧
    runAux w (fuel + 1) cycleIdx gen now st =
      { outcome := .terminated, st := st, events := [], gen := gen, now := now } ∧
    (∀ t a, a ∈ (pollHealthz w c t).attempts → ctxDone w a = false) :=
  ⟨pollHealthzAux_ctxDone_immediate w c 29 now h,
    probeLoopAux_ctxDone_immediate w host r i now h,
    by simp [runAux, h],
    fun t a ha => pollHealthzAux_attempts_not_ctxDone w c 30 t a ha⟩

theorem C3_amended_cancellation_checkpoints_witness :
    ctxDone Wcancel0 0 = true ∧
    (pollHealthz Wcancel0 "kind" 0 = { status := .canceled, attempts := [], now := 0 } ∧
      probeLoopAux Wcancel0 "h" 5 0 0 =
        { ok := false, canceled := true, attempts := [], sleeps := [], now := 0 } ∧
      runAux Wcancel0 1 0 0 0 [] =
        { outcome := .terminated, st := [], events := [], gen := 0, now := 0 } ∧
      (∀ t a, a ∈ (pollHealthz Wcancel0 "kind" t).attempts → ctxDone Wcancel0 a = false)) :=
  ⟨by decide,
    C3_amended_cancellation_checkpoints Wcancel0 "kind" "h" 4 0 0 0 0 0 [] (by decide)⟩

end CPKind
